import Mathlib

set_option maxHeartbeats 1000000
set_option maxRecDepth 4000

/-! Shallow embedding of a binary replay-file decoder (a byte cursor with
little-endian primitive reads, dual-encoding length-prefixed strings, and a
chunk-dispatch parser), together with proofs about its decoding behaviour.
Bytes are modelled as natural numbers, machine integers as `Nat`/`Int` with
explicit two's-complement wrap-around, decoded text as lists of Unicode
scalar values, and every fallible operation returns `Except`.  The AES-256
block cipher is left abstract: parsing functions take the decryption map as
an explicit parameter, since the claims concern only how and when it is
invoked. -/

/-- Failure points of the decoder (panics in the original program): slice
bounds overruns, string-decoding failures, a missing encryption key, cipher
preconditions, the missing header chunk, the version-label pattern mismatch
and the numeric parse of the captured version digits. -/
inductive DecodeError where
  | outOfBounds
  | utf8Error
  | utf16Error
  | noEncryptionKey
  | cipherError
  | headerNotFound
  | noHeaderState
  | branchPatternMismatch
  | numParseError
  deriving DecidableEq, Repr

deriving instance DecidableEq for Except

/-- Value of a little-endian byte sequence. -/
def leVal : List Nat → Nat
  | [] => 0
  | b :: bs => b + 256 * leVal bs

/-- Little-endian encoding of `x` on `w` bytes. -/
def encLE : Nat → Nat → List Nat
  | 0, _ => []
  | w + 1, x => x % 256 :: encLE w (x / 256)

/-- Two's-complement reinterpretation of a `bits`-wide unsigned value. -/
def toSigned (bits : Nat) (v : Nat) : Int :=
  if v < 2 ^ (bits - 1) then (v : Int) else (v : Int) - 2 ^ bits

/-- Wrap an integer into the `i32` range (release-mode overflow semantics). -/
def wrapI32 (x : Int) : Int :=
  (x + 2 ^ 31) % 2 ^ 32 - 2 ^ 31

/-- The `as usize` cast of an `i32` value on a 64-bit target. -/
def i32ToUsize (x : Int) : Nat :=
  (x % 2 ^ 64).toNat

/-- Uppercase hexadecimal digit character code for `n < 16`. -/
def hexUpperDigit (n : Nat) : Nat :=
  if n < 10 then 48 + n else 55 + n

/-- Lowercase hexadecimal digit character code for `n < 16`. -/
def hexLowerDigit (n : Nat) : Nat :=
  if n < 10 then 48 + n else 87 + n

/-- Rendering of one byte as two uppercase hex digits, as the `{:02X?}`
format of the source produces for a `u8`. -/
def byteHexUpper (b : Nat) : List Nat :=
  [hexUpperDigit (b / 16 % 16), hexUpperDigit (b % 16)]

/-- Rendering of one byte as two lowercase hex digits (the uppercase form
after `to_lowercase`). -/
def byteHexLower (b : Nat) : List Nat :=
  [hexLowerDigit (b / 16 % 16), hexLowerDigit (b % 16)]

/-- Code points of a Lean string literal, used to name the concrete strings
the decoder compares against. -/
def strLit (s : String) : List Nat :=
  s.data.map Char.toNat

/-- Unicode white-space property, as `char::is_whitespace` of the source's
standard library decides it. -/
def isRustWhitespace (c : Nat) : Bool :=
  c = 9 ∨ c = 10 ∨ c = 11 ∨ c = 12 ∨ c = 13 ∨ c = 32 ∨ c = 133 ∨ c = 160 ∨
    c = 5760 ∨ (8192 ≤ c ∧ c ≤ 8202) ∨ c = 8232 ∨ c = 8233 ∨ c = 8239 ∨
    c = 8287 ∨ c = 12288

/-- Removal of trailing white space, as `str::trim_end`. -/
def trimEnd (s : List Nat) : List Nat :=
  (s.reverse.dropWhile isRustWhitespace).reverse

/-- Validating UTF-8 decoding of a byte list into Unicode scalar values, as
`String::from_utf8` of the source's standard library performs it.  The
fuel argument only bounds the recursion depth; every step consumes at
least one byte, so a fuel of the list length is always sufficient. -/
def utf8DecodeF : Nat → List Nat → Option (List Nat)
  | _, [] => some []
  | 0, _ :: _ => none
  | fuel + 1, b :: rest =>
    if b ≤ 0x7F then (utf8DecodeF fuel rest).map (fun t => b :: t)
    else if b ≤ 0xBF then none
    else if b ≤ 0xDF then
      match rest with
      | b1 :: rest2 =>
        if 0x80 ≤ b1 ∧ b1 ≤ 0xBF then
          let cp := (b % 32) * 64 + b1 % 64
          if 0x80 ≤ cp then (utf8DecodeF fuel rest2).map (fun t => cp :: t)
          else none
        else none
      | [] => none
    else if b ≤ 0xEF then
      match rest with
      | b1 :: b2 :: rest3 =>
        if (0x80 ≤ b1 ∧ b1 ≤ 0xBF) ∧ (0x80 ≤ b2 ∧ b2 ≤ 0xBF) then
          let cp := (b % 16) * 4096 + (b1 % 64) * 64 + b2 % 64
          if 0x800 ≤ cp ∧ ¬(0xD800 ≤ cp ∧ cp ≤ 0xDFFF) then
            (utf8DecodeF fuel rest3).map (fun t => cp :: t)
          else none
        else none
      | _ => none
    else if b ≤ 0xF4 then
      match rest with
      | b1 :: b2 :: b3 :: rest4 =>
        if (0x80 ≤ b1 ∧ b1 ≤ 0xBF) ∧ (0x80 ≤ b2 ∧ b2 ≤ 0xBF) ∧
            (0x80 ≤ b3 ∧ b3 ≤ 0xBF) then
          let cp := (b % 8) * 262144 + (b1 % 64) * 4096 + (b2 % 64) * 64 + b3 % 64
          if 0x10000 ≤ cp ∧ cp ≤ 0x10FFFF then
            (utf8DecodeF fuel rest4).map (fun t => cp :: t)
          else none
        else none
      | _ => none
    else none

/-- UTF-8 decoding with the always-sufficient fuel. -/
def utf8Decode (bs : List Nat) : Option (List Nat) :=
  utf8DecodeF bs.length bs

/-- Validating UTF-16 decoding of a code-unit list into Unicode scalar
values, as `String::from_utf16` of the source's standard library performs
it, with the same always-sufficient fuel bound. -/
def utf16DecodeF : Nat → List Nat → Option (List Nat)
  | _, [] => some []
  | 0, _ :: _ => none
  | fuel + 1, u :: rest =>
    if u < 0xD800 ∨ 0xE000 ≤ u then (utf16DecodeF fuel rest).map (fun t => u :: t)
    else if u ≤ 0xDBFF then
      match rest with
      | u2 :: rest2 =>
        if 0xDC00 ≤ u2 ∧ u2 ≤ 0xDFFF then
          (utf16DecodeF fuel rest2).map
            (fun t => (0x10000 + (u - 0xD800) * 1024 + (u2 - 0xDC00)) :: t)
        else none
      | [] => none
    else none

/-- UTF-16 decoding with the always-sufficient fuel. -/
def utf16Decode (us : List Nat) : Option (List Nat) :=
  utf16DecodeF us.length us

/-- Decimal digit test on character codes. -/
def isDecDigit (c : Nat) : Bool :=
  48 ≤ c ∧ c ≤ 57

/-- Decimal parse of a digit string as `str::parse::<u32>`: fails on the
empty string and on values outside the `u32` range. -/
def parseU32 (ds : List Nat) : Option Nat :=
  if ds = [] then none
  else
    let v := ds.foldl (fun acc d => acc * 10 + (d - 48)) 0
    if v < 2 ^ 32 then some v else none

/-- Character codes of the literal part of the version pattern. -/
def releaseLit : List Nat := strLit "++Fortnite+Release-"

/-- Attempted match of the version pattern at the start of `s`: the literal
`++Fortnite+Release-`, one or more digits (captured as major), a dot, then
zero or more digits (captured as minor).  The digit runs are maximal, which
is what the greedy pattern `(\d+)\.(\d*)` matches at a fixed position. -/
def matchVersionAt (s : List Nat) : Option (List Nat × List Nat) :=
  if s.take releaseLit.length = releaseLit then
    let t := s.drop releaseLit.length
    let majorDigits := t.takeWhile isDecDigit
    if majorDigits = [] then none
    else
      let t2 := t.drop majorDigits.length
      match t2 with
      | 46 :: t3 => some (majorDigits, t3.takeWhile isDecDigit)
      | _ => none
  else none

/-- Leftmost match of the version pattern anywhere in the string, as
`Regex::captures` finds it. -/
def fortniteVersionMatch : List Nat → Option (List Nat × List Nat)
  | [] => none
  | c :: rest =>
    match matchVersionAt (c :: rest) with
    | some r => some r
    | none => fortniteVersionMatch rest

/-- The byte cursor of the source: a buffer, a movable offset and the
optional captured encryption key. -/
structure Reader where
  buffer : List Nat
  offset : Nat
  encryption_key : Option (List Nat)
  deriving DecidableEq, Repr

/-- Advance the offset without any bounds check, as `Reader::skip`. -/
def Reader.skip (r : Reader) (byte_count : Nat) : Reader :=
  { r with offset := r.offset + byte_count }

/-- Reposition the offset, as `Reader::goto`. -/
def Reader.goto (r : Reader) (byte_offset : Nat) : Reader :=
  { r with offset := byte_offset }

/-- Two-byte little-endian unsigned read; the source slices
`offset..offset+2` and advances by 2. -/
def Reader.read_u16 (r : Reader) : Except DecodeError (Nat × Reader) :=
  if r.offset + 2 ≤ r.buffer.length then
    .ok (leVal ((r.buffer.drop r.offset).take 2), r.skip 2)
  else .error .outOfBounds

/-- Four-byte little-endian unsigned read. -/
def Reader.read_u32 (r : Reader) : Except DecodeError (Nat × Reader) :=
  if r.offset + 4 ≤ r.buffer.length then
    .ok (leVal ((r.buffer.drop r.offset).take 4), r.skip 4)
  else .error .outOfBounds

/-- Eight-byte little-endian unsigned read. -/
def Reader.read_u64 (r : Reader) : Except DecodeError (Nat × Reader) :=
  if r.offset + 8 ≤ r.buffer.length then
    .ok (leVal ((r.buffer.drop r.offset).take 8), r.skip 8)
  else .error .outOfBounds

/-- Two-byte little-endian signed read. -/
def Reader.read_i16 (r : Reader) : Except DecodeError (Int × Reader) :=
  if r.offset + 2 ≤ r.buffer.length then
    .ok (toSigned 16 (leVal ((r.buffer.drop r.offset).take 2)), r.skip 2)
  else .error .outOfBounds

/-- Four-byte little-endian signed read. -/
def Reader.read_i32 (r : Reader) : Except DecodeError (Int × Reader) :=
  if r.offset + 4 ≤ r.buffer.length then
    .ok (toSigned 32 (leVal ((r.buffer.drop r.offset).take 4)), r.skip 4)
  else .error .outOfBounds

/-- Eight-byte little-endian signed read. -/
def Reader.read_i64 (r : Reader) : Except DecodeError (Int × Reader) :=
  if r.offset + 8 ≤ r.buffer.length then
    .ok (toSigned 64 (leVal ((r.buffer.drop r.offset).take 8)), r.skip 8)
  else .error .outOfBounds

/-- Four-byte float read, modelled by its little-endian bit pattern.  The
source slices `offset..offset+8` (eight bytes) before decoding the first
four and advancing by four, so the bounds requirement is eight bytes. -/
def Reader.read_f32 (r : Reader) : Except DecodeError (Nat × Reader) :=
  if r.offset + 8 ≤ r.buffer.length then
    .ok (leVal ((r.buffer.drop r.offset).take 4), r.skip 4)
  else .error .outOfBounds

/-- Single-byte read; the source slices `offset..offset+1` and indexes it. -/
def Reader.read_byte (r : Reader) : Except DecodeError (Nat × Reader) :=
  if r.offset + 1 ≤ r.buffer.length then
    .ok (((r.buffer.drop r.offset).take 1).headI, r.skip 1)
  else .error .outOfBounds

/-- Raw byte-range read of `byte_count` bytes. -/
def Reader.read_bytes (r : Reader) (byte_count : Nat) :
    Except DecodeError (List Nat × Reader) :=
  if r.offset + byte_count ≤ r.buffer.length then
    .ok ((r.buffer.drop r.offset).take byte_count,
      { r with offset := r.offset + byte_count })
  else .error .outOfBounds

/-- Boolean read: a four-byte signed integer compared against exactly 1. -/
def Reader.read_bool (r : Reader) : Except DecodeError (Bool × Reader) :=
  match r.read_i32 with
  | .error e => .error e
  | .ok (v, r1) => .ok (v == 1, r1)

/-- Sixteen-byte identifier read rendered as 32 lowercase hex characters. -/
def Reader.read_id (r : Reader) : Except DecodeError (List Nat × Reader) :=
  match r.read_bytes 16 with
  | .error e => .error e
  | .ok (bs, r1) => .ok ((bs.map byteHexLower).flatten, r1)

/-- Read `n` consecutive u16 values, as the loop of the negative-length
string branch pushes them. -/
def readU16s : Nat → Reader → Except DecodeError (List Nat × Reader)
  | 0, r => .ok ([], r)
  | n + 1, r =>
    match r.read_u16 with
    | .error e => .error e
    | .ok (u, r1) =>
      match readU16s n r1 with
      | .error e => .error e
      | .ok (us, r2) => .ok (u :: us, r2)

/-- Variable-length string read with the signed length prefix: zero length
is the empty string; a negative length counts UTF-16 code units; a positive
length counts UTF-8 bytes.  In both non-empty branches the final element is
popped before decoding.  The negation of the length models the `* -1` of
the source with `i32` wrap-around. -/
def Reader.read_string (r : Reader) : Except DecodeError (List Nat × Reader) :=
  match r.read_i32 with
  | .error e => .error e
  | .ok (string_length, r1) =>
    if string_length = 0 then .ok ([], r1)
    else if string_length < 0 then
      match readU16s (wrapI32 (string_length * -1)).toNat r1 with
      | .error e => .error e
      | .ok (us, r2) =>
        match utf16Decode us.dropLast with
        | some cps => .ok (cps, r2)
        | none => .error .utf16Error
    else
      match r1.read_bytes string_length.toNat with
      | .error e => .error e
      | .ok (bs, r2) =>
        match utf8Decode bs.dropLast with
        | some cps => .ok (cps, r2)
        | none => .error .utf8Error

/-- Read `n` consecutive strings. -/
def readStrings : Nat → Reader → Except DecodeError (List (List Nat) × Reader)
  | 0, r => .ok ([], r)
  | n + 1, r =>
    match r.read_string with
    | .error e => .error e
    | .ok (s, r1) =>
      match readStrings n r1 with
      | .error e => .error e
      | .ok (ss, r2) => .ok (s :: ss, r2)

/-- String-array read: a four-byte unsigned count then that many strings. -/
def Reader.read_string_vec (r : Reader) :
    Except DecodeError (List (List Nat) × Reader) :=
  match r.read_u32 with
  | .error e => .error e
  | .ok (n, r1) => readStrings n r1

/-- Read `n` consecutive (string, u32) pairs. -/
def readStringU32s : Nat → Reader →
    Except DecodeError (List (List Nat × Nat) × Reader)
  | 0, r => .ok ([], r)
  | n + 1, r =>
    match r.read_string with
    | .error e => .error e
    | .ok (s, r1) =>
      match r1.read_u32 with
      | .error e => .error e
      | .ok (v, r2) =>
        match readStringU32s n r2 with
        | .error e => .error e
        | .ok (ps, r3) => .ok ((s, v) :: ps, r3)

/-- Pair-array read: a four-byte unsigned count then that many
(string, u32) pairs. -/
def Reader.read_string_u32_tuple_vec (r : Reader) :
    Except DecodeError (List (List Nat × Nat) × Reader) :=
  match r.read_u32 with
  | .error e => .error e
  | .ok (n, r1) => readStringU32s n r1

/-- Decryption of a byte buffer into a fresh cursor at offset 0 with no
key.  The block cipher itself is the abstract parameter `aes`; the
embedding keeps the source's control flow: a missing captured key is an
error, the cipher construction requires a 32-byte key, and block-mode
decryption requires a whole number of 16-byte blocks. -/
def Reader.decrypt_buffer (aes : List Nat → List Nat → List Nat) (r : Reader)
    (data : List Nat) : Except DecodeError Reader :=
  match r.encryption_key with
  | none => .error .noEncryptionKey
  | some key =>
    if key.length = 32 ∧ data.length % 16 = 0 then
      .ok { buffer := aes key data, offset := 0, encryption_key := none }
    else .error .cipherError

/-- Session metadata decoded once at the start of a replay. -/
structure Meta where
  magic : Nat
  file_version : Nat
  length_in_ms : Nat
  network_version : Nat
  changelist : Nat
  name : List Nat
  is_live : Bool
  timestamp : Option Nat
  is_compressed : Bool
  is_encrypted : Bool
  deriving DecidableEq, Repr

/-- Engine build version parsed out of the branch label. -/
structure GameVersion where
  branch : List Nat
  patch : Nat
  changelist : Nat
  major : Nat
  minor : Nat
  deriving DecidableEq, Repr

/-- The header chunk's decoded contents. -/
structure Header where
  magic : Nat
  network_version : Nat
  network_checksum : Nat
  engine_network_version : Nat
  game_network_protocol : Nat
  id : Option (List Nat)
  version : GameVersion
  level_names_and_times : List (List Nat × Nat)
  flags : Nat
  game_specific_data : List (List Nat)
  deriving DecidableEq, Repr

/-- A player reference inside an elimination. -/
structure Player where
  id : List Nat
  name : List Nat
  is_bot : Bool
  deriving DecidableEq, Repr

/-- One elimination event. -/
structure Elimination where
  eliminated : Player
  eliminator : Player
  gun_type : List Nat
  is_knocked : Bool
  timestamp : Nat
  deriving DecidableEq, Repr

/-- Team match statistics. -/
structure TeamMatchStats where
  placement : Nat
  total_players : Nat
  deriving DecidableEq, Repr

/-- Match statistics; the accuracy float is modelled by its four-byte
little-endian bit pattern. -/
structure MatchStats where
  accuracy : Nat
  assists : Nat
  eliminations : Nat
  weapon_damage : Nat
  other_damage : Nat
  revives : Nat
  damage_taken : Nat
  damage_to_structures : Nat
  materials_gathered : Nat
  materials_used : Nat
  total_traveled : Nat
  deriving DecidableEq, Repr

/-- The decoder state: the owned cursor and the accumulated results. -/
structure Parser where
  reader : Reader
  meta : Option Meta
  header : Option Header
  match_stats : Option MatchStats
  team_match_stats : Option TeamMatchStats
  eliminations : List Elimination
  deriving DecidableEq, Repr

/-- Group string dispatched to the elimination decoder. -/
def strPlayerElim : List Nat := strLit "playerElim"

/-- Metadata tag dispatched to the match-statistics decoder. -/
def strAthenaMatchStats : List Nat := strLit "AthenaMatchStats"

/-- Metadata tag dispatched to the team-statistics decoder. -/
def strAthenaTeamStats : List Nat := strLit "AthenaMatchTeamStats"

/-- Metadata tag that is explicitly ignored. -/
def strPlayerStateKey : List Nat := strLit "PlayerStateEncryptionKey"

/-- Metadata decode: magic, file version, length, network version,
changelist, trimmed name, live flag, then the version-gated timestamp
(file version at least 3, with the u64 subtraction wrapping and the `as
u32` cast truncating), compression flag (at least 2) and encryption flag
(at least 6) with the optional key capture. -/
def Parser.parse_meta (p : Parser) : Except DecodeError Parser :=
  match p.reader.read_u32 with
  | .error e => .error e
  | .ok (magic, r1) =>
  match r1.read_u32 with
  | .error e => .error e
  | .ok (file_version, r2) =>
  match r2.read_u32 with
  | .error e => .error e
  | .ok (length_in_ms, r3) =>
  match r3.read_u32 with
  | .error e => .error e
  | .ok (network_version, r4) =>
  match r4.read_u32 with
  | .error e => .error e
  | .ok (changelist, r5) =>
  match r5.read_string with
  | .error e => .error e
  | .ok (name0, r6) =>
  match r6.read_bool with
  | .error e => .error e
  | .ok (is_live, r7) =>
  match (if 3 ≤ file_version then
      match r7.read_u64 with
      | .error e => .error e
      | .ok (raw, r) =>
        .ok (some ((raw + 2 ^ 64 - 621355968000000000) % 2 ^ 64 / 100000 % 2 ^ 32), r)
    else .ok (none, r7) : Except DecodeError (Option Nat × Reader)) with
  | .error e => .error e
  | .ok (timestamp, r8) =>
  match (if 2 ≤ file_version then
      match r8.read_bool with
      | .error e => .error e
      | .ok (b, r) => .ok (b, r)
    else .ok (false, r8) : Except DecodeError (Bool × Reader)) with
  | .error e => .error e
  | .ok (is_compressed, r9) =>
  match (if 6 ≤ file_version then
      match r9.read_bool with
      | .error e => .error e
      | .ok (is_encrypted, r10) =>
        if is_encrypted then
          match r10.read_u32 with
          | .error e => .error e
          | .ok (key_length, r11) =>
            match r11.read_bytes key_length with
            | .error e => .error e
            | .ok (key, r12) =>
              .ok (is_encrypted, { r12 with encryption_key := some key })
        else .ok (is_encrypted, r10)
    else .ok (false, r9) : Except DecodeError (Bool × Reader)) with
  | .error e => .error e
  | .ok (is_encrypted, r13) =>
    .ok { p with
      reader := r13,
      meta := some {
        magic := magic,
        file_version := file_version,
        length_in_ms := length_in_ms,
        network_version := network_version,
        changelist := changelist,
        name := trimEnd name0,
        is_live := is_live,
        timestamp := timestamp,
        is_compressed := is_compressed,
        is_encrypted := is_encrypted } }

/-- Header decode: five u32 fields, the optional sixteen-byte identifier
(network version above 12), four skipped bytes, patch, changelist, branch
label, level list, flags and game-specific strings; then the branch label
is matched against the release pattern and the two captures are parsed as
numbers, any failure being fatal. -/
def parse_header (r : Reader) : Except DecodeError (Header × Reader) :=
  match r.read_u32 with
  | .error e => .error e
  | .ok (magic, r1) =>
  match r1.read_u32 with
  | .error e => .error e
  | .ok (network_version, r2) =>
  match r2.read_u32 with
  | .error e => .error e
  | .ok (network_checksum, r3) =>
  match r3.read_u32 with
  | .error e => .error e
  | .ok (engine_network_version, r4) =>
  match r4.read_u32 with
  | .error e => .error e
  | .ok (game_network_protocol, r5) =>
  match (if 12 < network_version then
      match r5.read_id with
      | .error e => .error e
      | .ok (i, r) => .ok (some i, r)
    else .ok (none, r5) : Except DecodeError (Option (List Nat) × Reader)) with
  | .error e => .error e
  | .ok (id, r6) =>
  match (r6.skip 4).read_u16 with
  | .error e => .error e
  | .ok (patch, r7) =>
  match r7.read_u32 with
  | .error e => .error e
  | .ok (changelist, r8) =>
  match r8.read_string with
  | .error e => .error e
  | .ok (branch, r9) =>
  match r9.read_string_u32_tuple_vec with
  | .error e => .error e
  | .ok (level_names_and_times, r10) =>
  match r10.read_u32 with
  | .error e => .error e
  | .ok (flags, r11) =>
  match r11.read_string_vec with
  | .error e => .error e
  | .ok (game_specific_data, r12) =>
  match fortniteVersionMatch branch with
  | none => .error .branchPatternMismatch
  | some (majorDigits, minorDigits) =>
  match parseU32 majorDigits with
  | none => .error .numParseError
  | some major =>
  match parseU32 minorDigits with
  | none => .error .numParseError
  | some minor =>
    .ok ({
      magic := magic,
      network_version := network_version,
      network_checksum := network_checksum,
      engine_network_version := engine_network_version,
      game_network_protocol := game_network_protocol,
      id := id,
      version := {
        branch := branch,
        patch := patch,
        changelist := changelist,
        major := major,
        minor := minor },
      level_names_and_times := level_names_and_times,
      flags := flags,
      game_specific_data := game_specific_data }, r12)

/-- Tag-based rich player decode: tag 3 is a nameless bot, tag 16 is a bot
with a string name, any other tag skips one byte and reads a sixteen-byte
hex identifier. -/
def Parser.parse_player (data : Reader) : Except DecodeError (Player × Reader) :=
  match data.read_byte with
  | .error e => .error e
  | .ok (player_type, d1) =>
    if player_type = 3 then
      .ok ({ id := [], name := strLit "Bot", is_bot := true }, d1)
    else if player_type = 16 then
      match d1.read_string with
      | .error e => .error e
      | .ok (n, d2) => .ok ({ id := [], name := n, is_bot := true }, d2)
    else
      match (d1.skip 1).read_id with
      | .error e => .error e
      | .ok (i, d2) => .ok ({ id := i, name := [], is_bot := false }, d2)

/-- Elimination decode over a decrypted payload cursor: the rich tag-based
layout when the engine network version is at least 11 and the major game
version at least 9, otherwise a version-tiered reserved skip followed by
two plain string identifiers; both layouts end with the gun byte and the
knocked flag, and append one elimination carrying the event timestamp. -/
def Parser.parse_elimination (p : Parser) (data : Reader) (timestamp : Nat) :
    Except DecodeError (Parser × Reader) :=
  match p.header with
  | none => .error .noHeaderState
  | some header =>
  match (if 11 ≤ header.engine_network_version ∧ 9 ≤ header.version.major then
      match Parser.parse_player (data.skip 85) with
      | .error e => .error e
      | .ok (eliminated, d1) =>
      match Parser.parse_player d1 with
      | .error e => .error e
      | .ok (eliminator, d2) => .ok (eliminated, eliminator, d2)
    else
      let d0 :=
        if header.version.major ≤ 4 ∧ header.version.minor < 2 then data.skip 12
        else if header.version.major = 4 ∧ header.version.minor ≤ 2 then data.skip 40
        else data.skip 45
      match d0.read_string with
      | .error e => .error e
      | .ok (id1, d1) =>
      match d1.read_string with
      | .error e => .error e
      | .ok (id2, d2) =>
        .ok ({ id := id1, name := [], is_bot := false },
          { id := id2, name := [], is_bot := false }, d2) :
      Except DecodeError (Player × Player × Reader)) with
  | .error e => .error e
  | .ok (eliminated, eliminator, d2) =>
  match d2.read_byte with
  | .error e => .error e
  | .ok (gun_type, d3) =>
  match d3.read_bool with
  | .error e => .error e
  | .ok (knocked, d4) =>
    .ok ({ p with eliminations := p.eliminations ++
      [{ eliminated := eliminated, eliminator := eliminator,
         gun_type := byteHexUpper gun_type, is_knocked := knocked,
         timestamp := timestamp }] }, d4)

/-- Team-statistics decode: four reserved bytes, placement, total players. -/
def parse_team_match_stats (data : Reader) :
    Except DecodeError (TeamMatchStats × Reader) :=
  match (data.skip 4).read_u32 with
  | .error e => .error e
  | .ok (placement, d1) =>
  match d1.read_u32 with
  | .error e => .error e
  | .ok (total_players, d2) =>
    .ok ({ placement := placement, total_players := total_players }, d2)

/-- Match-statistics decode: four reserved bytes, the accuracy float and
ten unsigned counters. -/
def parse_match_stats (data : Reader) :
    Except DecodeError (MatchStats × Reader) :=
  match (data.skip 4).read_f32 with
  | .error e => .error e
  | .ok (accuracy, d1) =>
  match d1.read_u32 with
  | .error e => .error e
  | .ok (assists, d2) =>
  match d2.read_u32 with
  | .error e => .error e
  | .ok (eliminations, d3) =>
  match d3.read_u32 with
  | .error e => .error e
  | .ok (weapon_damage, d4) =>
  match d4.read_u32 with
  | .error e => .error e
  | .ok (other_damage, d5) =>
  match d5.read_u32 with
  | .error e => .error e
  | .ok (revives, d6) =>
  match d6.read_u32 with
  | .error e => .error e
  | .ok (damage_taken, d7) =>
  match d7.read_u32 with
  | .error e => .error e
  | .ok (damage_to_structures, d8) =>
  match d8.read_u32 with
  | .error e => .error e
  | .ok (materials_gathered, d9) =>
  match d9.read_u32 with
  | .error e => .error e
  | .ok (materials_used, d10) =>
  match d10.read_u32 with
  | .error e => .error e
  | .ok (total_traveled, d11) =>
    .ok ({ accuracy := accuracy, assists := assists,
           eliminations := eliminations, weapon_damage := weapon_damage,
           other_damage := other_damage, revives := revives,
           damage_taken := damage_taken,
           damage_to_structures := damage_to_structures,
           materials_gathered := materials_gathered,
           materials_used := materials_used,
           total_traveled := total_traveled }, d11)

/-- Event decode: an unused identifier string, the group string, the
metadata tag, the start time, four reserved bytes, the payload length and
the raw payload, which is always passed through decryption; the plaintext
cursor is then dispatched on group and metadata tag. -/
def Parser.parse_event (aes : List Nat → List Nat → List Nat) (p : Parser) :
    Except DecodeError Parser :=
  match p.reader.read_string with
  | .error e => .error e
  | .ok (_, r1) =>
  match r1.read_string with
  | .error e => .error e
  | .ok (group, r2) =>
  match r2.read_string with
  | .error e => .error e
  | .ok (metadata, r3) =>
  match r3.read_u32 with
  | .error e => .error e
  | .ok (start_time, r4) =>
  match (r4.skip 4).read_u32 with
  | .error e => .error e
  | .ok (length, r5) =>
  match r5.read_bytes length with
  | .error e => .error e
  | .ok (encrypted_buffer, r6) =>
  match r6.decrypt_buffer aes encrypted_buffer with
  | .error e => .error e
  | .ok (buffer_reader) =>
    if group = strPlayerElim then
      match Parser.parse_elimination ({ p with reader := r6 }) buffer_reader start_time with
      | .error e => .error e
      | .ok (p1, _) => .ok p1
    else if metadata = strAthenaMatchStats then
      match parse_match_stats buffer_reader with
      | .error e => .error e
      | .ok (ms, _) => .ok { p with reader := r6, match_stats := some ms }
    else if metadata = strAthenaTeamStats then
      match parse_team_match_stats buffer_reader with
      | .error e => .error e
      | .ok (ts, _) => .ok { p with reader := r6, team_match_stats := some ts }
    else
      .ok { p with reader := r6 }

/-- First scan pass: while no header has been found and bytes remain, read
a chunk type and size; a type-0 chunk is decoded as the header and the
cursor is repositioned to the declared end of its payload, ending the scan;
any other chunk is stepped over by its eight-byte type/size fields only.
Exhausting the buffer without a header is fatal. -/
def headerScan (r : Reader) : Except DecodeError (Header × Reader) :=
  if hlt : r.offset < r.buffer.length then
    match h1 : r.read_u32 with
    | .error e => .error e
    | .ok tyr =>
      match h2 : tyr.2.read_i32 with
      | .error e => .error e
      | .ok szr =>
        if tyr.1 = 0 then
          match parse_header szr.2 with
          | .error e => .error e
          | .ok hr =>
            .ok (hr.1, { hr.2 with offset := szr.2.offset + i32ToUsize szr.1 })
        else headerScan szr.2
  else .error .headerNotFound
termination_by r.buffer.length - r.offset
decreasing_by
  have hru32 : ∀ (r0 : Reader) q, r0.read_u32 = .ok q → q.2 = r0.skip 4 := by
    intro r0 q h
    unfold Reader.read_u32 at h
    split at h
    · injection h with h'
      subst h'
      rfl
    · exact absurd h (by simp)
  have hri32 : ∀ (r0 : Reader) q, r0.read_i32 = .ok q → q.2 = r0.skip 4 := by
    intro r0 q h
    unfold Reader.read_i32 at h
    split at h
    · injection h with h'
      subst h'
      rfl
    · exact absurd h (by simp)
  have e1 := hru32 _ _ h1
  have e2 := hri32 _ _ h2
  rw [e1] at e2
  rw [e2]
  simp only [Reader.skip]
  omega

/-- Second pass: walk the remaining chunks, dispatching type 3 to the event
decoder and ignoring every other type; after each chunk the cursor is
repositioned to the declared end of the chunk's payload, whatever the
handler consumed. -/
def chunkDispatch (aes : List Nat → List Nat → List Nat) (p : Parser) :
    Except DecodeError Parser :=
  if hlt : p.reader.offset < p.reader.buffer.length then
    match h1 : p.reader.read_u32 with
    | .error e => .error e
    | .ok tyr =>
      match h2 : tyr.2.read_i32 with
      | .error e => .error e
      | .ok szr =>
        if tyr.1 = 3 then
          match h3 : Parser.parse_event aes { p with reader := szr.2 } with
          | .error e => .error e
          | .ok p1 =>
            chunkDispatch aes { p1 with reader :=
              { p1.reader with offset := szr.2.offset + i32ToUsize szr.1 } }
        else
          chunkDispatch aes { p with reader :=
            { szr.2 with offset := szr.2.offset + i32ToUsize szr.1 } }
  else .ok p
termination_by p.reader.buffer.length - p.reader.offset
decreasing_by
  · have hru32 : ∀ (r0 : Reader) q, r0.read_u32 = .ok q → q.2 = r0.skip 4 := by
      intro r0 q h
      unfold Reader.read_u32 at h
      split at h
      · injection h with h'
        subst h'
        rfl
      · exact absurd h (by simp)
    have hri32 : ∀ (r0 : Reader) q, r0.read_i32 = .ok q → q.2 = r0.skip 4 := by
      intro r0 q h
      unfold Reader.read_i32 at h
      split at h
      · injection h with h'
        subst h'
        rfl
      · exact absurd h (by simp)
    have hbytes : ∀ (r0 : Reader) n q, r0.read_bytes n = .ok q →
        q.2.buffer = r0.buffer ∧ r0.offset ≤ q.2.offset := by
      intro r0 n q h
      unfold Reader.read_bytes at h
      split at h
      · injection h with h'
        subst h'
        exact ⟨rfl, by simp⟩
      · exact absurd h (by simp)
    have hru16 : ∀ (r0 : Reader) q, r0.read_u16 = .ok q → q.2 = r0.skip 2 := by
      intro r0 q h
      unfold Reader.read_u16 at h
      split at h
      · injection h with h'
        subst h'
        rfl
      · exact absurd h (by simp)
    have hu16s : ∀ n (r0 : Reader) q, readU16s n r0 = .ok q →
        q.2.buffer = r0.buffer := by
      intro n
      induction n with
      | zero =>
        intro r0 q h
        unfold readU16s at h
        injection h with h'
        subst h'
        rfl
      | succ k ih =>
        intro r0 q h
        unfold readU16s at h
        split at h
        · exact absurd h (by simp)
        · rename_i u r1 hequ
          split at h
          · exact absurd h (by simp)
          · rename_i us r2 heqs
            injection h with h'
            subst h'
            have b2 : r2.buffer = r1.buffer := ih _ _ heqs
            have b1 : r1 = r0.skip 2 := hru16 _ _ hequ
            show r2.buffer = r0.buffer
            rw [b2, b1]
            rfl
    have hstr : ∀ (r0 : Reader) q, r0.read_string = .ok q →
        q.2.buffer = r0.buffer := by
      intro r0 q h
      unfold Reader.read_string at h
      split at h
      · exact absurd h (by simp)
      · rename_i len r1 heql
        have b1 : r1.buffer = r0.buffer := by
          have hx : r1 = r0.skip 4 := hri32 _ _ heql
          rw [hx]
          rfl
        split at h
        · injection h with h'
          subst h'
          exact b1
        · split at h
          · split at h
            · exact absurd h (by simp)
            · rename_i us r2 hequ
              split at h
              · injection h with h'
                subst h'
                rw [hu16s _ _ _ hequ]
                exact b1
              · exact absurd h (by simp)
          · split at h
            · exact absurd h (by simp)
            · rename_i bs r2 heqb
              split at h
              · injection h with h'
                subst h'
                rw [(hbytes _ _ _ heqb).1]
                exact b1
              · exact absurd h (by simp)
    have helim : ∀ (p0 : Parser) d t q,
        Parser.parse_elimination p0 d t = .ok q → q.1.reader = p0.reader := by
      intro p0 d t q h
      unfold Parser.parse_elimination at h
      split at h
      · exact absurd h (by simp)
      · split at h
        · exact absurd h (by simp)
        · split at h
          · exact absurd h (by simp)
          · split at h
            · exact absurd h (by simp)
            · injection h with h'
              subst h'
              rfl
    have hpres : p1.reader.buffer = szr.2.buffer := by
      unfold Parser.parse_event at h3
      split at h3
      · exact absurd h3 (by simp)
      · rename_i s1 r1 heq1
        split at h3
        · exact absurd h3 (by simp)
        · rename_i group r2 heq2
          split at h3
          · exact absurd h3 (by simp)
          · rename_i metadata r3 heq3
            split at h3
            · exact absurd h3 (by simp)
            · rename_i st r4 heq4
              split at h3
              · exact absurd h3 (by simp)
              · rename_i len r5 heq5
                split at h3
                · exact absurd h3 (by simp)
                · rename_i encb r6 heq6
                  have b6 : r6.buffer = szr.2.buffer := by
                    have c1 : r1.buffer = szr.2.buffer := hstr _ _ heq1
                    have c2 : r2.buffer = r1.buffer := hstr _ _ heq2
                    have c3 : r3.buffer = r2.buffer := hstr _ _ heq3
                    have c4 : r4 = r3.skip 4 := hru32 _ _ heq4
                    have c5 : r5 = (r4.skip 4).skip 4 := hru32 _ _ heq5
                    have c6 : r6.buffer = r5.buffer := (hbytes _ _ _ heq6).1
                    rw [c6, c5]
                    show r4.buffer = szr.2.buffer
                    rw [c4]
                    show r3.buffer = szr.2.buffer
                    rw [c3, c2]
                    exact c1
                  split at h3
                  · exact absurd h3 (by simp)
                  · split at h3
                    · split at h3
                      · exact absurd h3 (by simp)
                      · rename_i pe heqe
                        injection h3 with h'
                        subst h'
                        rw [helim _ _ _ _ heqe]
                        exact b6
                    · split at h3
                      · split at h3
                        · exact absurd h3 (by simp)
                        · injection h3 with h'
                          subst h'
                          exact b6
                      · split at h3
                        · split at h3
                          · exact absurd h3 (by simp)
                          · injection h3 with h'
                            subst h'
                            exact b6
                        · injection h3 with h'
                          subst h'
                          exact b6
    have e1 := hru32 _ _ h1
    have e2 := hri32 _ _ h2
    rw [e1] at e2
    have hoff : szr.2.offset = p.reader.offset + 8 := by
      rw [e2]
      simp [Reader.skip]
    have hbuf : szr.2.buffer = p.reader.buffer := by
      rw [e2]
      rfl
    simp only [hpres, hbuf, hoff]
    omega
  · have hru32 : ∀ (r0 : Reader) q, r0.read_u32 = .ok q → q.2 = r0.skip 4 := by
      intro r0 q h
      unfold Reader.read_u32 at h
      split at h
      · injection h with h'
        subst h'
        rfl
      · exact absurd h (by simp)
    have hri32 : ∀ (r0 : Reader) q, r0.read_i32 = .ok q → q.2 = r0.skip 4 := by
      intro r0 q h
      unfold Reader.read_i32 at h
      split at h
      · injection h with h'
        subst h'
        rfl
      · exact absurd h (by simp)
    have e1 := hru32 _ _ h1
    have e2 := hri32 _ _ h2
    rw [e1] at e2
    rw [e2]
    simp only [Reader.skip]
    omega

/-- Chunk walk: scan for the header first (unless one is already present),
fatal when absent, then dispatch the remaining chunks. -/
def Parser.parse_chunks (aes : List Nat → List Nat → List Nat) (p : Parser) :
    Except DecodeError Parser :=
  match p.header with
  | some _ => chunkDispatch aes p
  | none =>
    match headerScan p.reader with
    | .error e => .error e
    | .ok (hdr, r) =>
      chunkDispatch aes { p with header := some hdr, reader := r }

/-- Full decode: metadata then chunks. -/
def Parser.parse (aes : List Nat → List Nat → List Nat) (p : Parser) :
    Except DecodeError Parser :=
  match p.parse_meta with
  | .error e => .error e
  | .ok p1 => Parser.parse_chunks aes p1

/-- Fresh decoder state over a cursor, as `Parser::new` builds it. -/
def Parser.new (r : Reader) : Parser :=
  { reader := r, meta := none, header := none, match_stats := none,
    team_match_stats := none, eliminations := [] }

/-- Positive-length string encoding described by the spec: a signed length
counting the UTF-8 bytes plus one, then the bytes, then a trailing null
byte. -/
def strEnc (bs : List Nat) : List Nat :=
  encLE 4 (bs.length + 1) ++ bs ++ [0]

/-- Reserved-region size of the legacy elimination layout, as the spec
words it: 12 bytes when major ≤ 4 and minor < 2, 40 bytes when major = 4
and minor ≤ 2, and 45 bytes in every other case. -/
def specElimSkip (major minor : Nat) : Nat :=
  if major ≤ 4 ∧ minor < 2 then 12
  else if major = 4 ∧ minor ≤ 2 then 40
  else 45

/-- Metadata buffer skeleton: the five leading u32 fields, an empty name,
the live flag, then exactly the optional fields the file version calls for
(the eight-byte tick count when at least 3, the compression flag when at
least 2, a cleared encryption flag when at least 6), then arbitrary
trailing bytes. -/
def mkMetaBuf (magic fv len net cl live raw cmp : Nat) (rest : List Nat) :
    List Nat :=
  encLE 4 magic ++ encLE 4 fv ++ encLE 4 len ++ encLE 4 net ++ encLE 4 cl ++
    encLE 4 0 ++ encLE 4 live ++
    (if 3 ≤ fv then encLE 8 raw else []) ++
    (if 2 ≤ fv then encLE 4 cmp else []) ++
    (if 6 ≤ fv then encLE 4 0 else []) ++ rest

/-- Event-chunk payload skeleton: an empty identifier string, the group
string, the metadata string, the start time, four reserved bytes, the
payload length and the payload bytes. -/
def evtBuf (g m : List Nat) (t : Nat) (payload : List Nat) : List Nat :=
  encLE 4 0 ++ strEnc g ++ strEnc m ++ encLE 4 t ++ [0, 0, 0, 0] ++
    encLE 4 payload.length ++ payload

/-- Header-chunk payload skeleton around a given engine network version
and branch label: zeroed magic, network version 0 (so no identifier
field), zeroed checksum and protocol, four reserved bytes, patch 0,
changelist 0, the branch string, an empty level list, zero flags and an
empty game-specific list. -/
def hdrBufOf (engine : Nat) (branch : List Nat) : List Nat :=
  encLE 4 0 ++ encLE 4 0 ++ encLE 4 0 ++ encLE 4 engine ++ encLE 4 0 ++
    [0, 0, 0, 0] ++ encLE 2 0 ++ encLE 4 0 ++ strEnc branch ++
    encLE 4 0 ++ encLE 4 0 ++ encLE 4 0

/-- Test fixture: a header with the rich-path versions (engine network
version 11, major 9). -/
def hdrRich : Header :=
  { magic := 0, network_version := 0, network_checksum := 0,
    engine_network_version := 11, game_network_protocol := 0, id := none,
    version := { branch := [], patch := 0, changelist := 0, major := 9, minor := 0 },
    level_names_and_times := [], flags := 0, game_specific_data := [] }

/-- Test fixture: a header with legacy-path versions (engine network
version 10, major 9, minor 30). -/
def hdrLegacy : Header :=
  { magic := 0, network_version := 0, network_checksum := 0,
    engine_network_version := 10, game_network_protocol := 0, id := none,
    version := { branch := [], patch := 0, changelist := 0, major := 9, minor := 30 },
    level_names_and_times := [], flags := 0, game_specific_data := [] }

/-- Test fixture: a decrypted elimination payload for the rich layout: 85
reserved bytes, two tag-based players (tag 1: one skipped byte then a
16-byte identifier), the gun byte 7 and a true knocked flag. -/
def dElimRich : List Nat :=
  List.replicate 85 0 ++ ([1, 0] ++ (List.replicate 16 171 ++
    ([1, 0] ++ (List.replicate 16 205 ++ ([7] ++ encLE 4 1)))))

/-- Test fixture: a decrypted elimination payload for the legacy 45-byte
tier: 45 reserved bytes, the string identifiers a and b, the gun byte 7
and a true knocked flag. -/
def dElimLegacy : List Nat :=
  List.replicate 45 0 ++ (strEnc [97] ++ (strEnc [98] ++ ([7] ++ encLE 4 1)))

/-- Test fixture: a dispatch-pass state whose first chunk has type 7 and
declared size 5. -/
def pDispatchSkipW : Parser :=
  Parser.new ⟨encLE 4 7 ++ (encLE 4 5 ++ [1, 2, 3]), 0, none⟩

/-- Test fixture: an event-chunk payload with empty identifier, group and
metadata strings, start time 5, four reserved bytes and an empty encrypted
payload. -/
def evtPlainW : List Nat :=
  encLE 4 0 ++ (encLE 4 0 ++ (encLE 4 0 ++ (encLE 4 5 ++
    ([0, 0, 0, 0] ++ encLE 4 0))))

/-- Test fixture: a dispatch-pass state whose first chunk has type 3 and
declared size 24, holding the plain event payload, with a 32-byte key
captured. -/
def pDispatchEvtW : Parser :=
  Parser.new ⟨encLE 4 3 ++ (encLE 4 24 ++ evtPlainW), 0,
    some (List.replicate 32 0)⟩

/-- Test fixture: the state the event handler returns on the type-3
fixture, its cursor at the end of the event fields. -/
def pDispatchEvtW1 : Parser :=
  Parser.new ⟨encLE 4 3 ++ (encLE 4 24 ++ evtPlainW), 32,
    some (List.replicate 32 0)⟩

/-- Test fixture: an event payload whose group is x and metadata tag is y
(dispatched to no handler), start time 5 and a sixteen-byte encrypted
payload. -/
def evtFixture : List Nat :=
  evtBuf (strLit "x") (strLit "y") 5 (List.replicate 16 0)

/-! Helper lemmas: little-endian coding, slice arithmetic and one stepping
lemma per primitive read, phrased on the shape of the bytes remaining at
the cursor. -/

theorem leVal_encLE (w x : Nat) : leVal (encLE w x) = x % 256 ^ w := by
  induction w generalizing x with
  | zero => simp [encLE, leVal, Nat.mod_one]
  | succ k ih =>
    simp only [encLE, leVal, ih]
    rw [show (256 : Nat) ^ (k + 1) = 256 * 256 ^ k by ring, Nat.mod_mul]

theorem length_encLE (w x : Nat) : (encLE w x).length = w := by
  induction w generalizing x with
  | zero => rfl
  | succ k ih => simp [encLE, ih]

theorem offset_bound {buf l1 rest : List Nat} {off : Nat}
    (h : buf.drop off = l1 ++ rest) (hpos : 0 < l1.length) :
    off + l1.length ≤ buf.length := by
  have hl : buf.length - off = l1.length + rest.length := by
    rw [← List.length_drop, h, List.length_append]
  omega

theorem drop_offset_add {buf l1 rest : List Nat} {off : Nat}
    (h : buf.drop off = l1 ++ rest) : buf.drop (off + l1.length) = rest := by
  rw [← List.drop_drop, h, List.drop_left]

theorem slice_take {buf l1 rest : List Nat} {off : Nat}
    (h : buf.drop off = l1 ++ rest) : (buf.drop off).take l1.length = l1 := by
  rw [h, List.take_left]

theorem read_u16_drop {r : Reader} {x : Nat} {rest : List Nat}
    (hx : x < 2 ^ 16) (h : r.buffer.drop r.offset = encLE 2 x ++ rest) :
    r.read_u16 = .ok (x, r.skip 2) := by
  have hb := offset_bound h (by rw [length_encLE]; omega)
  rw [length_encLE] at hb
  have ht : (r.buffer.drop r.offset).take 2 = encLE 2 x := by
    have := slice_take h
    rwa [length_encLE] at this
  unfold Reader.read_u16
  rw [if_pos hb, ht, leVal_encLE,
    Nat.mod_eq_of_lt (show x < 256 ^ 2 by norm_num at hx ⊢; omega)]

theorem read_u32_drop {r : Reader} {x : Nat} {rest : List Nat}
    (hx : x < 2 ^ 32) (h : r.buffer.drop r.offset = encLE 4 x ++ rest) :
    r.read_u32 = .ok (x, r.skip 4) := by
  have hb := offset_bound h (by rw [length_encLE]; omega)
  rw [length_encLE] at hb
  have ht : (r.buffer.drop r.offset).take 4 = encLE 4 x := by
    have := slice_take h
    rwa [length_encLE] at this
  unfold Reader.read_u32
  rw [if_pos hb, ht, leVal_encLE,
    Nat.mod_eq_of_lt (show x < 256 ^ 4 by norm_num at hx ⊢; omega)]

theorem read_u64_drop {r : Reader} {x : Nat} {rest : List Nat}
    (hx : x < 2 ^ 64) (h : r.buffer.drop r.offset = encLE 8 x ++ rest) :
    r.read_u64 = .ok (x, r.skip 8) := by
  have hb := offset_bound h (by rw [length_encLE]; omega)
  rw [length_encLE] at hb
  have ht : (r.buffer.drop r.offset).take 8 = encLE 8 x := by
    have := slice_take h
    rwa [length_encLE] at this
  unfold Reader.read_u64
  rw [if_pos hb, ht, leVal_encLE,
    Nat.mod_eq_of_lt (show x < 256 ^ 8 by norm_num at hx ⊢; omega)]

theorem read_i32_drop {r : Reader} {x : Nat} {rest : List Nat}
    (hx : x < 2 ^ 32) (h : r.buffer.drop r.offset = encLE 4 x ++ rest) :
    r.read_i32 = .ok (toSigned 32 x, r.skip 4) := by
  have hb := offset_bound h (by rw [length_encLE]; omega)
  rw [length_encLE] at hb
  have ht : (r.buffer.drop r.offset).take 4 = encLE 4 x := by
    have := slice_take h
    rwa [length_encLE] at this
  unfold Reader.read_i32
  rw [if_pos hb, ht, leVal_encLE,
    Nat.mod_eq_of_lt (show x < 256 ^ 4 by norm_num at hx ⊢; omega)]

theorem read_bool_drop {r : Reader} {x : Nat} {rest : List Nat}
    (hx : x < 2 ^ 32) (h : r.buffer.drop r.offset = encLE 4 x ++ rest) :
    r.read_bool = .ok (toSigned 32 x == 1, r.skip 4) := by
  unfold Reader.read_bool
  rw [read_i32_drop hx h]

theorem read_byte_drop {r : Reader} {b : Nat} {rest : List Nat}
    (h : r.buffer.drop r.offset = b :: rest) :
    r.read_byte = .ok (b, r.skip 1) := by
  have h' : r.buffer.drop r.offset = [b] ++ rest := by simpa using h
  have hb := offset_bound h' (by simp)
  simp only [List.length_cons, List.length_nil] at hb
  unfold Reader.read_byte
  rw [if_pos hb, h]
  rfl

theorem read_bytes_drop {r : Reader} {bs rest : List Nat}
    (hbs : 0 < bs.length) (h : r.buffer.drop r.offset = bs ++ rest) :
    r.read_bytes bs.length = .ok (bs, r.skip bs.length) := by
  have hb := offset_bound h hbs
  unfold Reader.read_bytes
  rw [if_pos hb, slice_take h]
  rfl

theorem read_id_drop {r : Reader} {bs rest : List Nat}
    (h16 : bs.length = 16) (h : r.buffer.drop r.offset = bs ++ rest) :
    r.read_id = .ok ((bs.map byteHexLower).flatten, r.skip 16) := by
  unfold Reader.read_id
  rw [show (16 : Nat) = bs.length from h16.symm, read_bytes_drop (by omega) h, h16]

theorem skip_buffer (r : Reader) (n : Nat) : (r.skip n).buffer = r.buffer := rfl

theorem skip_offset (r : Reader) (n : Nat) : (r.skip n).offset = r.offset + n := rfl

theorem skip_key (r : Reader) (n : Nat) :
    (r.skip n).encryption_key = r.encryption_key := rfl

theorem skip_skip (r : Reader) (a b : Nat) : (r.skip a).skip b = r.skip (a + b) := by
  simp [Reader.skip, Nat.add_assoc]

theorem drop_skip {r : Reader} {l1 rest : List Nat} {w : Nat} (hw : l1.length = w)
    (h : r.buffer.drop r.offset = l1 ++ rest) :
    (r.skip w).buffer.drop (r.skip w).offset = rest := by
  show r.buffer.drop (r.offset + w) = rest
  rw [← hw]
  exact drop_offset_add h

theorem toSigned32_of_lt {x : Nat} (hx : x < 2 ^ 31) : toSigned 32 x = (x : Int) := by
  unfold toSigned
  rw [if_pos (by simpa using hx)]

theorem toSigned32_neg {n : Nat} (h0 : 0 < n) (hn : n ≤ 2 ^ 31) :
    toSigned 32 (2 ^ 32 - n) = -(n : Int) := by
  unfold toSigned
  rw [if_neg (by simp only [show (32 : Nat) - 1 = 31 from rfl]; omega)]
  rw [Nat.cast_sub (by omega : n ≤ 2 ^ 32)]
  push_cast
  ring

theorem utf8DecodeF_ascii {bs : List Nat} {fuel : Nat} (hf : bs.length ≤ fuel)
    (h : ∀ b ∈ bs, b ≤ 127) : utf8DecodeF fuel bs = some bs := by
  induction bs generalizing fuel with
  | nil => cases fuel <;> rfl
  | cons b t ih =>
    have hb : b ≤ 127 := h b (by simp)
    match fuel, hf with
    | f + 1, hf =>
      have hstep : utf8DecodeF (f + 1) (b :: t) =
          (utf8DecodeF f t).map (fun v => b :: v) := by
        rw [utf8DecodeF.eq_def]
        simp [show b ≤ 0x7F by omega]
      rw [hstep, ih (by simpa using Nat.lt_succ_iff.mp hf)
        (fun x hx => h x (by simp [hx]))]
      rfl

theorem utf8Decode_ascii {bs : List Nat} (h : ∀ b ∈ bs, b ≤ 127) :
    utf8Decode bs = some bs :=
  utf8DecodeF_ascii (Nat.le_refl _) h

theorem readU16s_drop {us : List Nat} {r : Reader} {rest : List Nat}
    (hu : ∀ u ∈ us, u < 2 ^ 16)
    (h : r.buffer.drop r.offset = (us.map (encLE 2)).flatten ++ rest) :
    readU16s us.length r = .ok (us, r.skip (2 * us.length)) := by
  induction us generalizing r with
  | nil =>
    cases r
    simp [readU16s, Reader.skip]
  | cons u t ih =>
    have h' : r.buffer.drop r.offset = encLE 2 u ++ ((t.map (encLE 2)).flatten ++ rest) := by
      simpa [List.append_assoc] using h
    have hu1 : u < 2 ^ 16 := hu u (by simp)
    have h2 := drop_skip (length_encLE 2 u) h'
    simp only [List.length_cons, readU16s, read_u16_drop hu1 h']
    rw [ih (fun x hx => hu x (by simp [hx])) h2, skip_skip]
    have harith : 2 + 2 * t.length = 2 * (t.length + 1) := by ring
    rw [harith]

theorem toSigned32_beq_one {x : Nat} (hx : x < 2 ^ 32) :
    (toSigned 32 x == 1) = decide (x = 1) := by
  by_cases h1 : x = 1
  · subst h1
    simp [toSigned]
  · have hne : toSigned 32 x ≠ 1 := by
      unfold toSigned
      split <;> omega
    simp [h1, hne]

theorem read_string_zero {r : Reader} {rest : List Nat}
    (h : r.buffer.drop r.offset = encLE 4 0 ++ rest) :
    r.read_string = .ok ([], r.skip 4) := by
  unfold Reader.read_string
  rw [read_i32_drop (by norm_num) h]
  norm_num [toSigned]

theorem read_string_pos {r : Reader} {bs rest : List Nat}
    (h0 : 0 < bs.length) (hlen : bs.length < 2 ^ 31)
    (h : r.buffer.drop r.offset = encLE 4 bs.length ++ (bs ++ rest)) :
    r.read_string =
      (match utf8Decode bs.dropLast with
       | some cps => .ok (cps, r.skip (4 + bs.length))
       | none => .error .utf8Error) := by
  unfold Reader.read_string
  rw [read_i32_drop (by omega) h, toSigned32_of_lt hlen]
  have hne : ¬((bs.length : Nat) : Int) = 0 := by omega
  have hnlt : ¬(((bs.length : Nat) : Int) < 0) := by omega
  have hsh := drop_skip (length_encLE 4 bs.length) h
  simp only [hne, hnlt, if_false, Int.toNat_ofNat,
    read_bytes_drop h0 hsh, skip_skip]

theorem read_string_neg {r : Reader} {us rest : List Nat}
    (h0 : 0 < us.length) (hlen : us.length < 2 ^ 31)
    (hu : ∀ u ∈ us, u < 2 ^ 16)
    (h : r.buffer.drop r.offset =
      encLE 4 (2 ^ 32 - us.length) ++ ((us.map (encLE 2)).flatten ++ rest)) :
    r.read_string =
      (match utf16Decode us.dropLast with
       | some cps => .ok (cps, r.skip (4 + 2 * us.length))
       | none => .error .utf16Error) := by
  unfold Reader.read_string
  rw [read_i32_drop (by omega) h, toSigned32_neg h0 (by omega)]
  have hne : ¬(-((us.length : Nat) : Int) = 0) := by omega
  have hlt : -((us.length : Nat) : Int) < 0 := by omega
  have hcount : (wrapI32 (-((us.length : Nat) : Int) * -1)).toNat = us.length := by
    unfold wrapI32
    have hm : -((us.length : Nat) : Int) * -1 = ((us.length : Nat) : Int) := by ring
    rw [hm, Int.emod_eq_of_lt (by omega) (by omega)]
    omega
  have hsh := drop_skip (length_encLE 4 (2 ^ 32 - us.length)) h
  simp only [hne, hlt, if_false, if_pos, hcount,
    readU16s_drop hu hsh, skip_skip]

theorem read_string_vec_zero {r : Reader} {rest : List Nat}
    (h : r.buffer.drop r.offset = encLE 4 0 ++ rest) :
    r.read_string_vec = .ok ([], r.skip 4) := by
  unfold Reader.read_string_vec
  rw [read_u32_drop (by norm_num) h]
  rfl

theorem read_string_u32_tuple_vec_zero {r : Reader} {rest : List Nat}
    (h : r.buffer.drop r.offset = encLE 4 0 ++ rest) :
    r.read_string_u32_tuple_vec = .ok ([], r.skip 4) := by
  unfold Reader.read_string_u32_tuple_vec
  rw [read_u32_drop (by norm_num) h]
  rfl

/-! Claim theorems. -/

/-- C6: the claim says every fixed-width primitive read fails only when
fewer bytes remain than the type's width, so `read_f32` should succeed
whenever at least 4 bytes remain.  The code slices eight bytes before
decoding four: on a buffer holding exactly four bytes, `read_u32`
succeeds, yet `read_f32` fails with a bounds error even though the four
bytes its width requires are present. -/
theorem c6_read_f32_bounds_bug :
    Reader.read_u32 ⟨[0, 0, 0, 0], 0, none⟩ =
      .ok (0, ⟨[0, 0, 0, 0], 4, none⟩) ∧
    Reader.read_f32 ⟨[0, 0, 0, 0], 0, none⟩ = .error .outOfBounds := by
  decide

/-- C5: `read_string` round-trips both encodings.  For any ASCII byte
string, the buffer holding signed length byte-count+1, the bytes and a
trailing null decodes back to the original string (advancing past the
whole encoding); and the two-unit UTF-16 sequence A, null encoded with
length -2 decodes to the string A. -/
theorem c5_read_string_round_trip :
    (∀ (bs rest : List Nat) (k : Option (List Nat)),
      (∀ b ∈ bs, b ≤ 127) →
      bs.length + 1 < 2 ^ 31 →
      Reader.read_string ⟨strEnc bs ++ rest, 0, k⟩ =
        .ok (bs, ⟨strEnc bs ++ rest, 5 + bs.length, k⟩)) ∧
    Reader.read_string ⟨encLE 4 (2 ^ 32 - 2) ++ (encLE 2 65 ++ encLE 2 0), 0, none⟩ =
      .ok (strLit "A", ⟨encLE 4 (2 ^ 32 - 2) ++ (encLE 2 65 ++ encLE 2 0), 8, none⟩) := by
  constructor
  · intro bs rest k hascii hlen
    have h : (Reader.mk (strEnc bs ++ rest) 0 k).buffer.drop
        (Reader.mk (strEnc bs ++ rest) 0 k).offset =
        encLE 4 ((bs ++ [0]).length) ++ ((bs ++ [0]) ++ rest) := by
      simp [strEnc, List.append_assoc]
    rw [read_string_pos (by simp) (by simp; omega) h]
    rw [List.dropLast_concat, utf8Decode_ascii hascii]
    simp [Reader.skip]
    omega
  · decide

/-- C5 witness: the round-trip instantiated at the ASCII string Hi. -/
theorem c5_read_string_round_trip_witness :
    Reader.read_string ⟨strEnc (strLit "Hi"), 0, none⟩ =
      .ok (strLit "Hi", ⟨strEnc (strLit "Hi"), 7, none⟩) := by
  have := c5_read_string_round_trip.1 (strLit "Hi") [] none
    (by decide) (by decide)
  simpa using this

/-- C10: in both non-empty `read_string` branches the final element is
discarded unconditionally before decoding: the positive branch drops the
last UTF-8 byte and the negative branch drops the last UTF-16 code unit,
whether or not it is null, so the payload AB without a null terminator
decodes to A with its last character silently lost rather than failing. -/
theorem c10_last_element_dropped :
    (∀ (bs rest : List Nat) (k : Option (List Nat)),
      0 < bs.length → bs.length < 2 ^ 31 →
      Reader.read_string ⟨encLE 4 bs.length ++ (bs ++ rest), 0, k⟩ =
        (match utf8Decode bs.dropLast with
         | some cps =>
           .ok (cps, ⟨encLE 4 bs.length ++ (bs ++ rest), 4 + bs.length, k⟩)
         | none => .error .utf8Error)) ∧
    (∀ (us rest : List Nat) (k : Option (List Nat)),
      0 < us.length → us.length < 2 ^ 31 → (∀ u ∈ us, u < 2 ^ 16) →
      Reader.read_string
        ⟨encLE 4 (2 ^ 32 - us.length) ++ ((us.map (encLE 2)).flatten ++ rest), 0, k⟩ =
        (match utf16Decode us.dropLast with
         | some cps =>
           .ok (cps, ⟨encLE 4 (2 ^ 32 - us.length) ++
             ((us.map (encLE 2)).flatten ++ rest), 4 + 2 * us.length, k⟩)
         | none => .error .utf16Error)) ∧
    Reader.read_string ⟨encLE 4 2 ++ strLit "AB", 0, none⟩ =
      .ok (strLit "A", ⟨encLE 4 2 ++ strLit "AB", 6, none⟩) := by
  refine ⟨?_, ?_, by decide⟩
  · intro bs rest k h0 hlen
    have h : (Reader.mk (encLE 4 bs.length ++ (bs ++ rest)) 0 k).buffer.drop
        (Reader.mk (encLE 4 bs.length ++ (bs ++ rest)) 0 k).offset =
        encLE 4 bs.length ++ (bs ++ rest) := by simp
    rw [read_string_pos h0 hlen h]
    cases utf8Decode bs.dropLast with
    | none => rfl
    | some cps =>
      simp [Reader.skip]
  · intro us rest k h0 hlen hu
    have h : (Reader.mk (encLE 4 (2 ^ 32 - us.length) ++
        ((us.map (encLE 2)).flatten ++ rest)) 0 k).buffer.drop
        (Reader.mk (encLE 4 (2 ^ 32 - us.length) ++
          ((us.map (encLE 2)).flatten ++ rest)) 0 k).offset =
        encLE 4 (2 ^ 32 - us.length) ++ ((us.map (encLE 2)).flatten ++ rest) := by
      simp
    rw [read_string_neg h0 hlen hu h]
    cases utf16Decode us.dropLast with
    | none => rfl
    | some cps =>
      simp [Reader.skip]

/-- C10 witness: the positive branch at the bytes AB0 (null-terminated)
and the negative branch at the code units A, null. -/
theorem c10_last_element_dropped_witness :
    Reader.read_string ⟨encLE 4 3 ++ ([65, 66, 0] ++ []), 0, none⟩ =
      (match utf8Decode [65, 66, 0].dropLast with
       | some cps => .ok (cps, ⟨encLE 4 3 ++ ([65, 66, 0] ++ []), 7, none⟩)
       | none => .error .utf8Error) ∧
    Reader.read_string ⟨encLE 4 (2 ^ 32 - 2) ++
        (([65, 0].map (encLE 2)).flatten ++ []), 0, none⟩ =
      (match utf16Decode [65, 0].dropLast with
       | some cps => .ok (cps, ⟨encLE 4 (2 ^ 32 - 2) ++
         (([65, 0].map (encLE 2)).flatten ++ []), 8, none⟩)
       | none => .error .utf16Error) := by
  constructor
  · exact c10_last_element_dropped.1 [65, 66, 0] [] none (by decide) (by decide)
  · exact c10_last_element_dropped.2.1 [65, 0] [] none (by decide) (by decide)
      (by decide)

theorem length_strEnc (bs : List Nat) : (strEnc bs).length = 5 + bs.length := by
  simp [strEnc, length_encLE]
  omega

theorem read_strEnc {r : Reader} {bs rest : List Nat}
    (hascii : ∀ b ∈ bs, b ≤ 127) (hlen : bs.length + 1 < 2 ^ 31)
    (h : r.buffer.drop r.offset = strEnc bs ++ rest) :
    r.read_string = .ok (bs, r.skip (5 + bs.length)) := by
  have h' : r.buffer.drop r.offset =
      encLE 4 ((bs ++ [0]).length) ++ ((bs ++ [0]) ++ rest) := by
    rw [h]
    simp [strEnc, List.append_assoc]
  rw [read_string_pos (by simp) (by simp; omega) h', List.dropLast_concat,
    utf8Decode_ascii hascii]
  simp [Reader.skip, Reader.mk.injEq]
  omega

/-- C7: header decode matches the branch label against the release
pattern: the label ++Fortnite+Release-12.30 yields major 12 and minor 30,
and for any ASCII branch label in which the pattern does not occur the
decode fails with the pattern-mismatch error, no header (and hence no
GameVersion) being produced. -/
theorem c7_branch_version_pattern :
    parse_header ⟨hdrBufOf 11 (strLit "++Fortnite+Release-12.30"), 0, none⟩ =
      .ok ({ magic := 0, network_version := 0, network_checksum := 0,
             engine_network_version := 11, game_network_protocol := 0,
             id := none,
             version := { branch := strLit "++Fortnite+Release-12.30",
                          patch := 0, changelist := 0, major := 12, minor := 30 },
             level_names_and_times := [], flags := 0, game_specific_data := [] },
        ⟨hdrBufOf 11 (strLit "++Fortnite+Release-12.30"), 71, none⟩) ∧
    (∀ bs : List Nat, (∀ b ∈ bs, b ≤ 127) → bs.length + 1 < 2 ^ 31 →
      fortniteVersionMatch bs = none →
      parse_header ⟨hdrBufOf 0 bs, 0, none⟩ = .error .branchPatternMismatch) := by
  constructor
  · decide
  · intro bs hascii hlen hnone
    have s0 : (Reader.mk (hdrBufOf 0 bs) 0 none).buffer.drop
        (Reader.mk (hdrBufOf 0 bs) 0 none).offset =
        encLE 4 0 ++ (encLE 4 0 ++ (encLE 4 0 ++ (encLE 4 0 ++ (encLE 4 0 ++
          (0 :: 0 :: 0 :: 0 :: (encLE 2 0 ++ (encLE 4 0 ++ (strEnc bs ++
          (encLE 4 0 ++ (encLE 4 0 ++ encLE 4 0)))))))))) := by
      simp [hdrBufOf, List.append_assoc]
    have s1 := drop_skip (length_encLE 4 0) s0
    have s2 := drop_skip (length_encLE 4 0) s1
    have s3 := drop_skip (length_encLE 4 0) s2
    have s4 := drop_skip (length_encLE 4 0) s3
    have s5 := drop_skip (length_encLE 4 0) s4
    have s6 := drop_skip (show ([0, 0, 0, 0] : List Nat).length = 4 from rfl) s5
    have s7 := drop_skip (length_encLE 2 0) s6
    have s8 := drop_skip (length_encLE 4 0) s7
    have s9 := drop_skip (length_strEnc bs) s8
    have s10 := drop_skip (length_encLE 4 0) s9
    simp [parse_header,
      read_u32_drop (by norm_num) s0,
      read_u32_drop (by norm_num) s1,
      read_u32_drop (by norm_num) s2,
      read_u32_drop (by norm_num) s3,
      read_u32_drop (by norm_num) s4,
      read_u16_drop (by norm_num) s6,
      read_u32_drop (by norm_num) s7,
      read_strEnc hascii hlen s8,
      read_string_u32_tuple_vec_zero s9,
      read_u32_drop (by norm_num) s10,
      read_string_vec_zero (drop_skip (length_encLE 4 0) s10),
      hnone]

/-- C7 witness: the pattern-mismatch half at the branch label foo, which
the release pattern does not occur in. -/
theorem c7_branch_version_pattern_witness :
    parse_header ⟨hdrBufOf 0 (strLit "foo"), 0, none⟩ =
      .error .branchPatternMismatch :=
  c7_branch_version_pattern.2 (strLit "foo") (by decide) (by decide) (by decide)

/-- C1: elimination layout selection.  With the header present, the rich
tag-based path runs exactly when the engine network version is at least 11
and the major game version at least 9, after skipping 85 reserved bytes;
otherwise the decoder skips the spec's version-tiered reserved region and
reads the two identifiers as plain strings with empty names and bot flag
false.  The tier sizes instantiate to the claim's matrix: major 9 (any
minor) gives 45, major 4 minor 1 gives 12, major 4 minor 2 gives 40,
major 3 minor 5 gives 45. -/
theorem c1_elimination_version_gating :
    (∀ (p : Parser) (hdr : Header) (data : Reader) (t : Nat),
      p.header = some hdr →
      (11 ≤ hdr.engine_network_version ∧ 9 ≤ hdr.version.major →
        Parser.parse_elimination p data t =
          (match Parser.parse_player (data.skip 85) with
           | .error e => .error e
           | .ok (eliminated, d1) =>
             match Parser.parse_player d1 with
             | .error e => .error e
             | .ok (eliminator, d2) =>
               match d2.read_byte with
               | .error e => .error e
               | .ok (gun, d3) =>
                 match d3.read_bool with
                 | .error e => .error e
                 | .ok (kn, d4) =>
                   .ok ({ p with eliminations := p.eliminations ++
                     [{ eliminated := eliminated, eliminator := eliminator,
                        gun_type := byteHexUpper gun, is_knocked := kn,
                        timestamp := t }] }, d4))) ∧
      (¬(11 ≤ hdr.engine_network_version ∧ 9 ≤ hdr.version.major) →
        Parser.parse_elimination p data t =
          (match (data.skip (specElimSkip hdr.version.major hdr.version.minor)).read_string with
           | .error e => .error e
           | .ok (id1, d1) =>
             match d1.read_string with
             | .error e => .error e
             | .ok (id2, d2) =>
               match d2.read_byte with
               | .error e => .error e
               | .ok (gun, d3) =>
                 match d3.read_bool with
                 | .error e => .error e
                 | .ok (kn, d4) =>
                   .ok ({ p with eliminations := p.eliminations ++
                     [{ eliminated := { id := id1, name := [], is_bot := false },
                        eliminator := { id := id2, name := [], is_bot := false },
                        gun_type := byteHexUpper gun, is_knocked := kn,
                        timestamp := t }] }, d4)))) ∧
    specElimSkip 9 30 = 45 ∧ specElimSkip 4 1 = 12 ∧ specElimSkip 4 2 = 40 ∧
    specElimSkip 3 5 = 45 := by
  refine ⟨?_, by decide, by decide, by decide, by decide⟩
  intro p hdr data t hp
  constructor
  · intro hcond
    unfold Parser.parse_elimination
    rw [hp]
    simp only [if_pos hcond]
    cases h1 : Parser.parse_player (data.skip 85) with
    | error e => rfl
    | ok q1 =>
      obtain ⟨elim1, d1⟩ := q1
      cases h2 : Parser.parse_player d1 with
      | error e => simp [h2]
      | ok q2 =>
        obtain ⟨elim2, d2⟩ := q2
        cases h3 : d2.read_byte with
        | error e => simp [h2, h3]
        | ok q3 =>
          obtain ⟨gun, d3⟩ := q3
          cases h4 : d3.read_bool with
          | error e => simp [h2, h3, h4]
          | ok q4 =>
            obtain ⟨kn, d4⟩ := q4
            simp [h2, h3, h4]
  · intro hcond
    unfold Parser.parse_elimination
    rw [hp]
    simp only [if_neg hcond]
    have hd0 : (if hdr.version.major ≤ 4 ∧ hdr.version.minor < 2 then data.skip 12
        else if hdr.version.major = 4 ∧ hdr.version.minor ≤ 2 then data.skip 40
        else data.skip 45) =
        data.skip (specElimSkip hdr.version.major hdr.version.minor) := by
      unfold specElimSkip
      by_cases hA : hdr.version.major ≤ 4 ∧ hdr.version.minor < 2
      · simp [hA]
      · by_cases hB : hdr.version.major = 4 ∧ hdr.version.minor ≤ 2
        · have hm : ¬(hdr.version.minor < 2) := by omega
          simp [hA, hB, hm]
        · simp [hA, hB]
    rw [hd0]
    cases h1 : (data.skip (specElimSkip hdr.version.major hdr.version.minor)).read_string with
    | error e => rfl
    | ok q1 =>
      obtain ⟨id1, d1⟩ := q1
      cases h2 : d1.read_string with
      | error e => simp [h2]
      | ok q2 =>
        obtain ⟨id2, d2⟩ := q2
        cases h3 : d2.read_byte with
        | error e => simp [h2, h3]
        | ok q3 =>
          obtain ⟨gun, d3⟩ := q3
          cases h4 : d3.read_bool with
          | error e => simp [h2, h3, h4]
          | ok q4 =>
            obtain ⟨kn, d4⟩ := q4
            simp [h2, h3, h4]

/-- C1 witness: the rich path at engine network version 11 with major 9
(85 reserved bytes, tag-based players), and the legacy path at engine
network version 10 with major 9 (45 reserved bytes, plain string
identifiers, empty names, bot flags false). -/
theorem c1_elimination_version_gating_witness :
    Parser.parse_elimination
      { Parser.new ⟨[], 0, none⟩ with header := some hdrRich }
      ⟨dElimRich, 0, none⟩ 3 =
      .ok ({ Parser.new ⟨[], 0, none⟩ with
             header := some hdrRich,
             eliminations :=
               [{ eliminated :=
                    { id := ((List.replicate 16 (171 : Nat)).map byteHexLower).flatten,
                      name := [], is_bot := false },
                  eliminator :=
                    { id := ((List.replicate 16 (205 : Nat)).map byteHexLower).flatten,
                      name := [], is_bot := false },
                  gun_type := [48, 55], is_knocked := true, timestamp := 3 }] },
        ⟨dElimRich, 126, none⟩) ∧
    Parser.parse_elimination
      { Parser.new ⟨[], 0, none⟩ with header := some hdrLegacy }
      ⟨dElimLegacy, 0, none⟩ 5 =
      .ok ({ Parser.new ⟨[], 0, none⟩ with
             header := some hdrLegacy,
             eliminations :=
               [{ eliminated := { id := [97], name := [], is_bot := false },
                  eliminator := { id := [98], name := [], is_bot := false },
                  gun_type := [48, 55], is_knocked := true, timestamp := 5 }] },
        ⟨dElimLegacy, 62, none⟩) := by
  constructor
  · rw [(c1_elimination_version_gating.1 _ _ _ _ rfl).1 (by decide)]
    decide
  · rw [(c1_elimination_version_gating.1 _ _ _ _ rfl).2 (by decide)]
    decide

theorem i32ToUsize_small {x : Nat} (hx : x < 2 ^ 31) :
    i32ToUsize (toSigned 32 x) = x := by
  rw [toSigned32_of_lt hx]
  unfold i32ToUsize
  rw [Int.emod_eq_of_lt (by omega) (by omega)]
  omega

/-- C4: header discovery.  An exhausted buffer with no header met is the
fatal header-missing error; a chunk whose type is not 0 advances the scan
by exactly the eight type/size bytes, not by the declared payload size; and
the first type-0 chunk is decoded as the header at its payload start, the
cursor then jumping to the declared payload end, with no further
scanning. -/
theorem c4_header_scan :
    (∀ r : Reader, r.buffer.length ≤ r.offset →
      headerScan r = .error .headerNotFound) ∧
    (∀ (r : Reader) (ty sz : Nat) (rest : List Nat),
      ty < 2 ^ 32 → sz < 2 ^ 32 → ty ≠ 0 →
      r.buffer.drop r.offset = encLE 4 ty ++ (encLE 4 sz ++ rest) →
      headerScan r = headerScan (r.skip 8)) ∧
    (∀ (r : Reader) (sz : Nat) (rest : List Nat),
      sz < 2 ^ 31 →
      r.buffer.drop r.offset = encLE 4 0 ++ (encLE 4 sz ++ rest) →
      headerScan r =
        (match parse_header (r.skip 8) with
         | .error e => .error e
         | .ok hr => .ok (hr.1, { hr.2 with offset := r.offset + 8 + sz }))) := by
  refine ⟨?_, ?_, ?_⟩
  · intro r hex
    rw [headerScan.eq_def]
    rw [dif_neg (by omega)]
  · intro r ty sz rest hty hsz hne h
    have hlt : r.offset < r.buffer.length := by
      have := offset_bound h (by rw [length_encLE]; omega)
      rw [length_encLE] at this
      omega
    have h2shape := drop_skip (length_encLE 4 ty) h
    rw [headerScan.eq_def, dif_pos hlt]
    split
    · rename_i e h1
      rw [read_u32_drop hty h] at h1
      simp at h1
    · rename_i tyr h1
      obtain ⟨tyv, tr⟩ := tyr
      rw [read_u32_drop hty h] at h1
      injection h1 with h1
      injection h1 with h1a h1b
      subst h1a
      subst h1b
      split
      · rename_i e h2
        rw [read_i32_drop hsz h2shape] at h2
        simp at h2
      · rename_i szr h2
        obtain ⟨szv, sr⟩ := szr
        rw [read_i32_drop hsz h2shape] at h2
        injection h2 with h2
        injection h2 with h2a h2b
        subst h2a
        subst h2b
        rw [if_neg hne, skip_skip]
  · intro r sz rest hsz h
    have hlt : r.offset < r.buffer.length := by
      have := offset_bound h (by rw [length_encLE]; omega)
      rw [length_encLE] at this
      omega
    have h2shape := drop_skip (length_encLE 4 0) h
    rw [headerScan.eq_def, dif_pos hlt]
    split
    · rename_i e h1
      rw [read_u32_drop (show (0 : Nat) < 2 ^ 32 by norm_num) h] at h1
      simp at h1
    · rename_i tyr h1
      obtain ⟨tyv, tr⟩ := tyr
      rw [read_u32_drop (show (0 : Nat) < 2 ^ 32 by norm_num) h] at h1
      injection h1 with h1
      injection h1 with h1a h1b
      subst h1a
      subst h1b
      split
      · rename_i e h2
        rw [read_i32_drop (show sz < 2 ^ 32 by omega) h2shape] at h2
        simp at h2
      · rename_i szr h2
        obtain ⟨szv, sr⟩ := szr
        rw [read_i32_drop (show sz < 2 ^ 32 by omega) h2shape] at h2
        injection h2 with h2
        injection h2 with h2a h2b
        subst h2a
        subst h2b
        rw [if_pos rfl, skip_skip]
        cases hh : parse_header (r.skip (4 + 4)) with
        | error e => rfl
        | ok hr =>
          simp only [Except.ok.injEq, Prod.mk.injEq, Reader.mk.injEq,
            i32ToUsize_small hsz, Reader.skip]

/-- C4 witness: the empty buffer fails with the header-missing error; a
type-1 chunk steps the scan by eight bytes only; a type-0 chunk hands its
payload to the header decoder and repositions to the declared end. -/
theorem c4_header_scan_witness :
    headerScan ⟨[], 0, none⟩ = .error .headerNotFound ∧
    headerScan ⟨encLE 4 1 ++ (encLE 4 9 ++ [5]), 0, none⟩ =
      headerScan (Reader.skip ⟨encLE 4 1 ++ (encLE 4 9 ++ [5]), 0, none⟩ 8) ∧
    headerScan ⟨encLE 4 0 ++ (encLE 4 71 ++
        hdrBufOf 11 (strLit "++Fortnite+Release-12.30")), 0, none⟩ =
      (match parse_header (Reader.skip ⟨encLE 4 0 ++ (encLE 4 71 ++
          hdrBufOf 11 (strLit "++Fortnite+Release-12.30")), 0, none⟩ 8) with
       | .error e => .error e
       | .ok hr => .ok (hr.1, { hr.2 with offset := 0 + 8 + 71 })) :=
  ⟨c4_header_scan.1 _ (by decide),
   c4_header_scan.2.1 _ 1 9 [5] (by decide) (by decide) (by decide) (by decide),
   c4_header_scan.2.2 _ 71 (hdrBufOf 11 (strLit "++Fortnite+Release-12.30"))
     (by decide) (by decide)⟩

/-- C2: the chunk-skip invariant of the dispatch pass.  Whatever the chunk
type, and however many bytes the type-3 event handler itself consumed, the
loop continues with the cursor at exactly payload start plus declared
size. -/
theorem c2_dispatch_repositions_cursor :
    (∀ (aes : List Nat → List Nat → List Nat) (p : Parser) (ty n : Nat)
      (rest : List Nat),
      ty < 2 ^ 32 → n < 2 ^ 31 → ty ≠ 3 →
      p.reader.buffer.drop p.reader.offset = encLE 4 ty ++ (encLE 4 n ++ rest) →
      chunkDispatch aes p = chunkDispatch aes
        { p with reader := { p.reader with offset := p.reader.offset + 8 + n } }) ∧
    (∀ (aes : List Nat → List Nat → List Nat) (p p1 : Parser) (n : Nat)
      (rest : List Nat),
      n < 2 ^ 31 →
      p.reader.buffer.drop p.reader.offset = encLE 4 3 ++ (encLE 4 n ++ rest) →
      Parser.parse_event aes { p with reader := p.reader.skip 8 } = .ok p1 →
      chunkDispatch aes p = chunkDispatch aes
        { p1 with reader := { p1.reader with offset := p.reader.offset + 8 + n } }) := by
  constructor
  · intro aes p ty n rest hty hn hne h
    have hlt : p.reader.offset < p.reader.buffer.length := by
      have := offset_bound h (by rw [length_encLE]; omega)
      rw [length_encLE] at this
      omega
    have h2shape := drop_skip (length_encLE 4 ty) h
    rw [chunkDispatch.eq_def, dif_pos hlt]
    split
    · rename_i e h1
      rw [read_u32_drop hty h] at h1
      simp at h1
    · rename_i tyr h1
      obtain ⟨tyv, tr⟩ := tyr
      rw [read_u32_drop hty h] at h1
      injection h1 with h1
      injection h1 with h1a h1b
      subst h1a
      subst h1b
      split
      · rename_i e h2
        rw [read_i32_drop (show n < 2 ^ 32 by omega) h2shape] at h2
        simp at h2
      · rename_i szr h2
        obtain ⟨szv, sr⟩ := szr
        rw [read_i32_drop (show n < 2 ^ 32 by omega) h2shape] at h2
        injection h2 with h2
        injection h2 with h2a h2b
        subst h2a
        subst h2b
        rw [if_neg hne]
        congr 1
        simp only [Parser.mk.injEq, Reader.mk.injEq, Reader.skip,
          i32ToUsize_small hn]
  · intro aes p p1 n rest hn h hev
    have hlt : p.reader.offset < p.reader.buffer.length := by
      have := offset_bound h (by rw [length_encLE]; omega)
      rw [length_encLE] at this
      omega
    have h2shape := drop_skip (length_encLE 4 3) h
    have hskip : Reader.skip (Reader.skip p.reader 4) 4 = p.reader.skip 8 := by
      rw [skip_skip]
    rw [chunkDispatch.eq_def, dif_pos hlt]
    split
    · rename_i e h1
      rw [read_u32_drop (show (3 : Nat) < 2 ^ 32 by norm_num) h] at h1
      simp at h1
    · rename_i tyr h1
      obtain ⟨tyv, tr⟩ := tyr
      rw [read_u32_drop (show (3 : Nat) < 2 ^ 32 by norm_num) h] at h1
      injection h1 with h1
      injection h1 with h1a h1b
      subst h1a
      subst h1b
      split
      · rename_i e h2
        rw [read_i32_drop (show n < 2 ^ 32 by omega) h2shape] at h2
        simp at h2
      · rename_i szr h2
        obtain ⟨szv, sr⟩ := szr
        rw [read_i32_drop (show n < 2 ^ 32 by omega) h2shape] at h2
        injection h2 with h2
        injection h2 with h2a h2b
        subst h2a
        subst h2b
        rw [if_pos rfl]
        split
        · rename_i e h3
          rw [hskip, hev] at h3
          simp at h3
        · rename_i p2 h3
          rw [hskip, hev] at h3
          injection h3 with h3
          subst h3
          congr 1
          simp only [Parser.mk.injEq, Reader.mk.injEq, Reader.skip,
            i32ToUsize_small hn]

/-- C2 witness: a type-7 chunk of declared size 5 repositions to offset 13,
and a type-3 chunk of declared size 24 whose handler succeeds repositions
to offset 32, in both cases payload start plus declared size. -/
theorem c2_dispatch_repositions_cursor_witness :
    chunkDispatch (fun _ _ => []) pDispatchSkipW =
      chunkDispatch (fun _ _ => [])
        { pDispatchSkipW with reader :=
          { pDispatchSkipW.reader with offset :=
            pDispatchSkipW.reader.offset + 8 + 5 } } ∧
    chunkDispatch (fun _ _ => []) pDispatchEvtW =
      chunkDispatch (fun _ _ => [])
        { pDispatchEvtW1 with reader :=
          { pDispatchEvtW1.reader with offset :=
            pDispatchEvtW.reader.offset + 8 + 24 } } :=
  ⟨c2_dispatch_repositions_cursor.1 (fun _ _ => []) pDispatchSkipW 7 5 [1, 2, 3]
      (by decide) (by decide) (by decide) (by decide),
   c2_dispatch_repositions_cursor.2 (fun _ _ => []) pDispatchEvtW pDispatchEvtW1
      24 evtPlainW (by decide) (by decide) (by decide)⟩

theorem drop_at {buf l1 rest : List Nat} {off w off2 : Nat}
    {k : Option (List Nat)} (hw : l1.length = w) (hoff : off2 = off + w)
    (h : (Reader.mk buf off k).buffer.drop (Reader.mk buf off k).offset = l1 ++ rest) :
    (Reader.mk buf off2 k).buffer.drop (Reader.mk buf off2 k).offset = rest := by
  subst hoff
  show buf.drop (off + w) = rest
  rw [← hw]
  exact drop_offset_add h

/-- C8 (amended): metadata decode with file version at least 3 reads an
eight-byte tick count and stores ((raw - 621355968000000000) / 100000)
reduced modulo 2^32 (the stored field is 32 bits wide; shown here for raw
at least the epoch offset, below which the u64 subtraction wraps); with
file version below 3 no timestamp bytes are consumed and the field is
absent, the final cursor offset accounting for exactly the fields the
version calls for. -/
theorem c8_meta_timestamp :
    ∀ (magic fv len net cl live raw cmp : Nat) (rest : List Nat)
      (k : Option (List Nat)) (p : Parser),
      magic < 2 ^ 32 → fv < 2 ^ 32 → len < 2 ^ 32 → net < 2 ^ 32 →
      cl < 2 ^ 32 → live < 2 ^ 32 → raw < 2 ^ 64 → cmp < 2 ^ 32 →
      621355968000000000 ≤ raw →
      p.reader = ⟨mkMetaBuf magic fv len net cl live raw cmp rest, 0, k⟩ →
      Parser.parse_meta p = .ok { p with
        reader := ⟨mkMetaBuf magic fv len net cl live raw cmp rest,
                   28 + (if 3 ≤ fv then 8 else 0) + (if 2 ≤ fv then 4 else 0) +
                     (if 6 ≤ fv then 4 else 0), k⟩,
        meta := some { magic := magic, file_version := fv, length_in_ms := len,
                       network_version := net, changelist := cl, name := [],
                       is_live := decide (live = 1),
                       timestamp := if 3 ≤ fv then
                         some ((raw - 621355968000000000) / 100000 % 2 ^ 32)
                       else none,
                       is_compressed := if 2 ≤ fv then decide (cmp = 1) else false,
                       is_encrypted := false } } := by
  intro magic fv len net cl live raw cmp rest k p
  intro hmagic hfv hlen hnet hcl hlive hraw hcmp hepoch hr
  obtain ⟨r0, m0, h0, ms0, ts0, el0⟩ := p
  simp only at hr
  subst hr
  have hwrap : (raw + 2 ^ 64 - 621355968000000000) % 2 ^ 64 =
      raw - 621355968000000000 := by omega
  by_cases h6 : 6 ≤ fv
  · have h3 : 3 ≤ fv := by omega
    have h2 : 2 ≤ fv := by omega
    have s0 : (Reader.mk (mkMetaBuf magic fv len net cl live raw cmp rest) 0 k).buffer.drop
        (Reader.mk (mkMetaBuf magic fv len net cl live raw cmp rest) 0 k).offset =
        encLE 4 magic ++ (encLE 4 fv ++ (encLE 4 len ++ (encLE 4 net ++
          (encLE 4 cl ++ (encLE 4 0 ++ (encLE 4 live ++ (encLE 8 raw ++
          (encLE 4 cmp ++ (encLE 4 0 ++ rest))))))))) := by
      simp [mkMetaBuf, h2, h3, h6, List.append_assoc]
    have s1 := drop_at (length_encLE 4 magic) (by norm_num : (4 : Nat) = 0 + 4) s0
    have s2 := drop_at (length_encLE 4 fv) (by norm_num : (8 : Nat) = 4 + 4) s1
    have s3 := drop_at (length_encLE 4 len) (by norm_num : (12 : Nat) = 8 + 4) s2
    have s4 := drop_at (length_encLE 4 net) (by norm_num : (16 : Nat) = 12 + 4) s3
    have s5 := drop_at (length_encLE 4 cl) (by norm_num : (20 : Nat) = 16 + 4) s4
    have s6 := drop_at (length_encLE 4 0) (by norm_num : (24 : Nat) = 20 + 4) s5
    have s7 := drop_at (length_encLE 4 live) (by norm_num : (28 : Nat) = 24 + 4) s6
    have s8 := drop_at (length_encLE 8 raw) (by norm_num : (36 : Nat) = 28 + 8) s7
    have s9 := drop_at (length_encLE 4 cmp) (by norm_num : (40 : Nat) = 36 + 4) s8
    simp [Parser.parse_meta,
      read_u32_drop hmagic s0, read_u32_drop hfv s1, read_u32_drop hlen s2,
      read_u32_drop hnet s3, read_u32_drop hcl s4, read_string_zero s5,
      read_bool_drop hlive s6, read_u64_drop hraw s7, read_bool_drop hcmp s8,
      read_bool_drop (show (0 : Nat) < 2 ^ 32 by norm_num) s9,
      toSigned32_beq_one hlive, toSigned32_beq_one hcmp,
      (show (toSigned 32 0 == 1) = false from by decide),
      h2, h3, h6, trimEnd, Reader.skip]
    all_goals omega
  · by_cases h3 : 3 ≤ fv
    · have h2 : 2 ≤ fv := by omega
      have s0 : (Reader.mk (mkMetaBuf magic fv len net cl live raw cmp rest) 0 k).buffer.drop
          (Reader.mk (mkMetaBuf magic fv len net cl live raw cmp rest) 0 k).offset =
          encLE 4 magic ++ (encLE 4 fv ++ (encLE 4 len ++ (encLE 4 net ++
            (encLE 4 cl ++ (encLE 4 0 ++ (encLE 4 live ++ (encLE 8 raw ++
            (encLE 4 cmp ++ rest)))))))) := by
        simp [mkMetaBuf, h2, h3, h6, List.append_assoc]
      have s1 := drop_at (length_encLE 4 magic) (by norm_num : (4 : Nat) = 0 + 4) s0
      have s2 := drop_at (length_encLE 4 fv) (by norm_num : (8 : Nat) = 4 + 4) s1
      have s3 := drop_at (length_encLE 4 len) (by norm_num : (12 : Nat) = 8 + 4) s2
      have s4 := drop_at (length_encLE 4 net) (by norm_num : (16 : Nat) = 12 + 4) s3
      have s5 := drop_at (length_encLE 4 cl) (by norm_num : (20 : Nat) = 16 + 4) s4
      have s6 := drop_at (length_encLE 4 0) (by norm_num : (24 : Nat) = 20 + 4) s5
      have s7 := drop_at (length_encLE 4 live) (by norm_num : (28 : Nat) = 24 + 4) s6
      have s8 := drop_at (length_encLE 8 raw) (by norm_num : (36 : Nat) = 28 + 8) s7
      simp [Parser.parse_meta,
        read_u32_drop hmagic s0, read_u32_drop hfv s1, read_u32_drop hlen s2,
        read_u32_drop hnet s3, read_u32_drop hcl s4, read_string_zero s5,
        read_bool_drop hlive s6, read_u64_drop hraw s7, read_bool_drop hcmp s8,
        toSigned32_beq_one hlive, toSigned32_beq_one hcmp,
        h2, h3, h6, trimEnd, Reader.skip]
      all_goals omega
    · by_cases h2 : 2 ≤ fv
      · have s0 : (Reader.mk (mkMetaBuf magic fv len net cl live raw cmp rest) 0 k).buffer.drop
            (Reader.mk (mkMetaBuf magic fv len net cl live raw cmp rest) 0 k).offset =
            encLE 4 magic ++ (encLE 4 fv ++ (encLE 4 len ++ (encLE 4 net ++
              (encLE 4 cl ++ (encLE 4 0 ++ (encLE 4 live ++
              (encLE 4 cmp ++ rest))))))) := by
          simp [mkMetaBuf, h2, h3, h6, List.append_assoc]
        have s1 := drop_at (length_encLE 4 magic) (by norm_num : (4 : Nat) = 0 + 4) s0
        have s2 := drop_at (length_encLE 4 fv) (by norm_num : (8 : Nat) = 4 + 4) s1
        have s3 := drop_at (length_encLE 4 len) (by norm_num : (12 : Nat) = 8 + 4) s2
        have s4 := drop_at (length_encLE 4 net) (by norm_num : (16 : Nat) = 12 + 4) s3
        have s5 := drop_at (length_encLE 4 cl) (by norm_num : (20 : Nat) = 16 + 4) s4
        have s6 := drop_at (length_encLE 4 0) (by norm_num : (24 : Nat) = 20 + 4) s5
        have s7 := drop_at (length_encLE 4 live) (by norm_num : (28 : Nat) = 24 + 4) s6
        simp [Parser.parse_meta,
          read_u32_drop hmagic s0, read_u32_drop hfv s1, read_u32_drop hlen s2,
          read_u32_drop hnet s3, read_u32_drop hcl s4, read_string_zero s5,
          read_bool_drop hlive s6, read_bool_drop hcmp s7,
          toSigned32_beq_one hlive, toSigned32_beq_one hcmp,
          h2, h3, h6, trimEnd, Reader.skip]
        all_goals omega
      · have s0 : (Reader.mk (mkMetaBuf magic fv len net cl live raw cmp rest) 0 k).buffer.drop
            (Reader.mk (mkMetaBuf magic fv len net cl live raw cmp rest) 0 k).offset =
            encLE 4 magic ++ (encLE 4 fv ++ (encLE 4 len ++ (encLE 4 net ++
              (encLE 4 cl ++ (encLE 4 0 ++ (encLE 4 live ++ rest)))))) := by
          simp [mkMetaBuf, h2, h3, h6, List.append_assoc]
        have s1 := drop_at (length_encLE 4 magic) (by norm_num : (4 : Nat) = 0 + 4) s0
        have s2 := drop_at (length_encLE 4 fv) (by norm_num : (8 : Nat) = 4 + 4) s1
        have s3 := drop_at (length_encLE 4 len) (by norm_num : (12 : Nat) = 8 + 4) s2
        have s4 := drop_at (length_encLE 4 net) (by norm_num : (16 : Nat) = 12 + 4) s3
        have s5 := drop_at (length_encLE 4 cl) (by norm_num : (20 : Nat) = 16 + 4) s4
        have s6 := drop_at (length_encLE 4 0) (by norm_num : (24 : Nat) = 20 + 4) s5
        simp [Parser.parse_meta,
          read_u32_drop hmagic s0, read_u32_drop hfv s1, read_u32_drop hlen s2,
          read_u32_drop hnet s3, read_u32_drop hcl s4, read_string_zero s5,
          read_bool_drop hlive s6, toSigned32_beq_one hlive,
          h2, h3, h6, trimEnd, Reader.skip]
        all_goals omega

/-- C8 counterexample: the claim as stated says the stored timestamp
equals (raw - 621355968000000000) / 100000.  At the tick count
621785464729600000 that quotient is 4294967296, but the stored 32-bit
field holds 0: the `as u32` cast truncates modulo 2^32. -/
theorem c8_meta_timestamp_counterexample :
    (match Parser.parse_meta
        (Parser.new ⟨mkMetaBuf 0 3 0 0 0 0 621785464729600000 0 [], 0, none⟩) with
     | .ok q => q.meta.map Meta.timestamp
     | .error _ => none) = some (some 0) ∧
    (621785464729600000 - 621355968000000000) / 100000 = 4294967296 ∧
    (0 : Nat) ≠ 4294967296 := by
  decide

/-- C8 witness: the amended statement at file version 3 and tick count
621355968100000000, one second past the epoch offset. -/
theorem c8_meta_timestamp_witness :
    Parser.parse_meta
      (Parser.new ⟨mkMetaBuf 1 3 2 3 4 1 621355968100000000 0 [], 0, none⟩) =
      .ok { Parser.new ⟨mkMetaBuf 1 3 2 3 4 1 621355968100000000 0 [], 0, none⟩ with
        reader := ⟨mkMetaBuf 1 3 2 3 4 1 621355968100000000 0 [],
                   28 + (if 3 ≤ 3 then 8 else 0) + (if 2 ≤ 3 then 4 else 0) +
                     (if 6 ≤ 3 then 4 else 0), none⟩,
        meta := some { magic := 1, file_version := 3, length_in_ms := 2,
                       network_version := 3, changelist := 4, name := [],
                       is_live := decide ((1 : Nat) = 1),
                       timestamp := if 3 ≤ 3 then
                         some ((621355968100000000 - 621355968000000000) /
                           100000 % 2 ^ 32)
                       else none,
                       is_compressed := if 2 ≤ 3 then decide ((0 : Nat) = 1)
                       else false,
                       is_encrypted := false } } :=
  c8_meta_timestamp 1 3 2 3 4 1 621355968100000000 0 [] none
    (Parser.new ⟨mkMetaBuf 1 3 2 3 4 1 621355968100000000 0 [], 0, none⟩)
    (by decide) (by decide) (by decide) (by decide) (by decide) (by decide)
    (by decide) (by decide) (by decide) rfl

/-- C3: for every well-formed event chunk the raw payload bytes are passed
through the decryption operation with the captured key before any dispatch,
whatever the group and metadata strings and whatever the parser's metadata
(including its encryption flag, which is never consulted): with no captured
key the decode fails with the encryption error, and with a captured key the
event is dispatched on a cursor over the decrypted bytes. -/
theorem c3_unconditional_decryption :
    ∀ (aes : List Nat → List Nat → List Nat) (p : Parser)
      (g m payload rest : List Nat) (t : Nat),
      (∀ b ∈ g, b ≤ 127) → g.length + 1 < 2 ^ 31 →
      (∀ b ∈ m, b ≤ 127) → m.length + 1 < 2 ^ 31 →
      t < 2 ^ 32 → payload.length < 2 ^ 32 → 0 < payload.length →
      p.reader.buffer.drop p.reader.offset = evtBuf g m t payload ++ rest →
      (p.reader.encryption_key = none →
        Parser.parse_event aes p = .error .noEncryptionKey) ∧
      (∀ key, p.reader.encryption_key = some key → key.length = 32 →
        payload.length % 16 = 0 →
        Parser.parse_event aes p =
          (if g = strPlayerElim then
            (match Parser.parse_elimination
                { p with reader := Reader.skip p.reader (26 + g.length + m.length + payload.length) }
                ⟨aes key payload, 0, none⟩ t with
             | .error e => .error e
             | .ok (pe, _) => .ok pe)
           else if m = strAthenaMatchStats then
            (match parse_match_stats ⟨aes key payload, 0, none⟩ with
             | .error e => .error e
             | .ok (ms, _) => .ok { p with
                 reader := Reader.skip p.reader (26 + g.length + m.length + payload.length),
                 match_stats := some ms })
           else if m = strAthenaTeamStats then
            (match parse_team_match_stats ⟨aes key payload, 0, none⟩ with
             | .error e => .error e
             | .ok (ts, _) => .ok { p with
                 reader := Reader.skip p.reader (26 + g.length + m.length + payload.length),
                 team_match_stats := some ts })
           else .ok { p with
             reader := Reader.skip p.reader (26 + g.length + m.length + payload.length) })) := by
  intro aes p g m payload rest t hg hgl hm hml ht hpl hpl0 hshape
  have s0 : p.reader.buffer.drop p.reader.offset =
      encLE 4 0 ++ (strEnc g ++ (strEnc m ++ (encLE 4 t ++
        (0 :: 0 :: 0 :: 0 :: (encLE 4 payload.length ++ (payload ++ rest)))))) := by
    rw [hshape]
    simp [evtBuf, List.append_assoc]
  have s1 := drop_skip (length_encLE 4 0) s0
  have s2 := drop_skip (length_strEnc g) s1
  have s3 := drop_skip (length_strEnc m) s2
  have s4 := drop_skip (length_encLE 4 t) s3
  have s5 := drop_skip (show ([0, 0, 0, 0] : List Nat).length = 4 from rfl) s4
  have s6 := drop_skip (length_encLE 4 payload.length) s5
  constructor
  · intro hkey
    simp [Parser.parse_event, read_string_zero s0, read_strEnc hg hgl s1,
      read_strEnc hm hml s2, read_u32_drop ht s3, read_u32_drop hpl s5,
      read_bytes_drop hpl0 s6, Reader.decrypt_buffer, skip_key, hkey]
  · intro key hkey hklen hpmod
    simp [Parser.parse_event, read_string_zero s0, read_strEnc hg hgl s1,
      read_strEnc hm hml s2, read_u32_drop ht s3, read_u32_drop hpl s5,
      read_bytes_drop hpl0 s6, Reader.decrypt_buffer, skip_key, hkey,
      hklen, hpmod]
    have hre : ((((((p.reader.skip 4).skip (5 + g.length)).skip
        (5 + m.length)).skip 4).skip 4).skip 4).skip payload.length =
        Reader.skip p.reader (26 + g.length + m.length + payload.length) := by
      simp only [Reader.skip, Reader.mk.injEq, true_and, and_true]
      omega
    rw [hre]

/-- C3 witness: the no-key fixture fails with the encryption error, and the
keyed fixture decodes with the payload passed through the (here constant)
cipher and no handler dispatched. -/
theorem c3_unconditional_decryption_witness :
    Parser.parse_event (fun _ _ => [])
      (Parser.new ⟨evtFixture ++ [], 0, none⟩) = .error .noEncryptionKey ∧
    Parser.parse_event (fun _ _ => [])
      (Parser.new ⟨evtFixture ++ [], 0, some (List.replicate 32 0)⟩) =
      .ok { Parser.new ⟨evtFixture ++ [], 0, some (List.replicate 32 0)⟩ with
            reader := Reader.skip
              (Parser.new ⟨evtFixture ++ [], 0, some (List.replicate 32 0)⟩).reader
              (26 + (strLit "x").length + (strLit "y").length +
                (List.replicate 16 (0 : Nat)).length) } := by
  constructor
  · exact (c3_unconditional_decryption (fun _ _ => [])
      (Parser.new ⟨evtFixture ++ [], 0, none⟩) (strLit "x") (strLit "y")
      (List.replicate 16 0) [] 5 (by decide) (by decide) (by decide) (by decide)
      (by decide) (by decide) (by decide) (by decide)).1 rfl
  · rw [(c3_unconditional_decryption (fun _ _ => [])
      (Parser.new ⟨evtFixture ++ [], 0, some (List.replicate 32 0)⟩)
      (strLit "x") (strLit "y") (List.replicate 16 0) [] 5 (by decide)
      (by decide) (by decide) (by decide) (by decide) (by decide) (by decide)
      (by decide)).2 (List.replicate 32 0) rfl (by decide) (by decide)]
    decide

/-- C9: an event whose group string is playerElim runs only the
elimination decoder, whatever its metadata tag says: for every ASCII
metadata string (including AthenaMatchStats and AthenaMatchTeamStats),
exactly one elimination is appended with the event's start time, and the
stored match statistics and team statistics are left unchanged. -/
theorem c9_player_elim_precedence :
    ∀ (p : Parser) (m rest : List Nat),
      (∀ b ∈ m, b ≤ 127) → m.length + 1 < 2 ^ 31 →
      p.header = some hdrLegacy →
      p.reader.buffer.drop p.reader.offset =
        evtBuf (strLit "playerElim") m 777 (List.replicate 16 0) ++ rest →
      p.reader.encryption_key = some (List.replicate 32 0) →
      Parser.parse_event (fun _ _ => dElimLegacy) p =
        .ok { p with
          reader := Reader.skip p.reader (52 + m.length),
          eliminations := p.eliminations ++
            [{ eliminated := { id := [97], name := [], is_bot := false },
               eliminator := { id := [98], name := [], is_bot := false },
               gun_type := [48, 55], is_knocked := true, timestamp := 777 }] } := by
  intro p m rest hm hml hp hshape hkey
  have s0 : p.reader.buffer.drop p.reader.offset =
      encLE 4 0 ++ (strEnc (strLit "playerElim") ++ (strEnc m ++ (encLE 4 777 ++
        (0 :: 0 :: 0 :: 0 :: (encLE 4 16 ++ (List.replicate 16 0 ++ rest)))))) := by
    rw [hshape]
    simp [evtBuf, List.append_assoc]
  have s1 := drop_skip (length_encLE 4 0) s0
  have s2 := drop_skip (length_strEnc (strLit "playerElim")) s1
  have s3 := drop_skip (length_strEnc m) s2
  have s4 := drop_skip (length_encLE 4 777) s3
  have s5 := drop_skip (show ([0, 0, 0, 0] : List Nat).length = 4 from rfl) s4
  have s6 := drop_skip (length_encLE 4 16) s5
  have hb6 := read_bytes_drop
    (show 0 < (List.replicate 16 (0 : Nat)).length by decide) s6
  simp only [List.length_replicate] at hb6
  have hglen : (strLit "playerElim").length = 10 := by decide
  simp only [hglen, Nat.reduceAdd] at s2 s3 s4 s5 s6 hb6
  simp [Parser.parse_event, read_string_zero s0,
    read_strEnc (by decide) (by decide) s1, read_strEnc hm hml s2,
    read_u32_drop (by norm_num) s3, read_u32_drop (by norm_num) s5, hb6,
    Reader.decrypt_buffer, skip_key, hkey, strPlayerElim,
    Parser.parse_elimination, hp, hdrLegacy,
    (show Reader.read_string (Reader.skip ⟨dElimLegacy, 0, none⟩ 45) =
      .ok ([97], ⟨dElimLegacy, 51, none⟩) from by decide),
    (show Reader.read_string ⟨dElimLegacy, 51, none⟩ =
      .ok ([98], ⟨dElimLegacy, 57, none⟩) from by decide),
    (show Reader.read_byte ⟨dElimLegacy, 57, none⟩ =
      .ok (7, ⟨dElimLegacy, 58, none⟩) from by decide),
    (show Reader.read_bool ⟨dElimLegacy, 58, none⟩ =
      .ok (true, ⟨dElimLegacy, 62, none⟩) from by decide),
    (show byteHexUpper 7 = [48, 55] from by decide), hglen]
  have hre : ((((((p.reader.skip 4).skip 15).skip (5 + m.length)).skip 4).skip
      4).skip 4).skip 16 = Reader.skip p.reader (52 + m.length) := by
    simp only [Reader.skip, Reader.mk.injEq, true_and, and_true]
    omega
  rw [hre]

/-- C9 witness: an event carrying group playerElim together with metadata
tag AthenaMatchStats appends exactly one elimination and leaves the stored
statistics untouched. -/
theorem c9_player_elim_precedence_witness :
    Parser.parse_event (fun _ _ => dElimLegacy)
      { Parser.new ⟨evtBuf (strLit "playerElim") (strLit "AthenaMatchStats")
          777 (List.replicate 16 0), 0, some (List.replicate 32 0)⟩ with
        header := some hdrLegacy } =
      .ok { { Parser.new ⟨evtBuf (strLit "playerElim") (strLit "AthenaMatchStats")
              777 (List.replicate 16 0), 0, some (List.replicate 32 0)⟩ with
            header := some hdrLegacy } with
        reader := Reader.skip
          ({ Parser.new ⟨evtBuf (strLit "playerElim") (strLit "AthenaMatchStats")
              777 (List.replicate 16 0), 0, some (List.replicate 32 0)⟩ with
            header := some hdrLegacy } : Parser).reader
          (52 + (strLit "AthenaMatchStats").length),
        eliminations :=
          ({ Parser.new ⟨evtBuf (strLit "playerElim") (strLit "AthenaMatchStats")
              777 (List.replicate 16 0), 0, some (List.replicate 32 0)⟩ with
            header := some hdrLegacy } : Parser).eliminations ++
          [{ eliminated := { id := [97], name := [], is_bot := false },
             eliminator := { id := [98], name := [], is_bot := false },
             gun_type := [48, 55], is_knocked := true, timestamp := 777 }] } :=
  c9_player_elim_precedence
    { Parser.new ⟨evtBuf (strLit "playerElim") (strLit "AthenaMatchStats")
        777 (List.replicate 16 0), 0, some (List.replicate 32 0)⟩ with
      header := some hdrLegacy }
    (strLit "AthenaMatchStats") [] (by decide) (by decide) rfl (by decide) rfl
